import Mathlib

/-!
# sqlxpp: tag-driven column extraction and SQL text generation

A shallow embedding of `helpers.go` and `db.go`.

* Go values seen through `reflect` are the inductive `Value`; a struct carries
  its fields in declaration order, a map carries the keys in the order
  `MapKeys()` hands them out.
* A Go `panic` is the `error` side of `Except Panic`.
* The external executor (`dbSPI`) is a record of response functions; every
  operation reports the statement texts it handed to the executor.
* Errors of `github.com/pkg/errors` are the inductive `Error`; the Go `error`
  interface value is `Option Error`, `none` being `nil`.
-/

namespace Sqlxpp

/-! ## Reflected values -/

/-- The `reflect.Kind`s other than `Struct`, `Map` and `Ptr`. -/
inductive OtherKind
  | Invalid | Bool | Int | Int8 | Int16 | Int32 | Int64
  | Uint | Uint8 | Uint16 | Uint32 | Uint64 | Uintptr
  | Float32 | Float64 | Complex64 | Complex128
  | Array | Chan | Func | Interface | Slice | Str | UnsafePointer
  deriving DecidableEq, Repr

/-- The text of `Kind.String()` for the kinds of `OtherKind`. -/
def OtherKind.name : OtherKind → String
  | .Invalid => "invalid" | .Bool => "bool" | .Int => "int" | .Int8 => "int8"
  | .Int16 => "int16" | .Int32 => "int32" | .Int64 => "int64"
  | .Uint => "uint" | .Uint8 => "uint8" | .Uint16 => "uint16"
  | .Uint32 => "uint32" | .Uint64 => "uint64" | .Uintptr => "uintptr"
  | .Float32 => "float32" | .Float64 => "float64"
  | .Complex64 => "complex64" | .Complex128 => "complex128"
  | .Array => "array" | .Chan => "chan" | .Func => "func"
  | .Interface => "interface" | .Slice => "slice" | .Str => "string"
  | .UnsafePointer => "unsafe.Pointer"

/-- A key of a reflected map: a string key, or a key of another type, of which
only the type name matters (`Value.String()` prints `<T Value>` for it). -/
inductive MapKey
  | str (s : String)
  | nonStr (typeName : String)
  deriving DecidableEq, Repr

/-- The text of `keyv.String()` on a reflected map key. -/
def MapKey.String : MapKey → String
  | .str s => s
  | .nonStr t => "<" ++ t ++ " Value>"

/-- A struct tag as its key/value pairs, e.g. `db:"id" json:"x"`. -/
abbrev StructTag := List (String × String)

/-- The value of `tag.Get(key)`: the value stored under `key`, or `""`. -/
def StructTag.Get (tag : StructTag) (key : String) : String :=
  (tag.lookup key).getD ""

mutual
/-- A Go value as `reflect.ValueOf` sees it in one call. `struct` lists the
fields in declaration order; `map` lists the keys in the order the one
`MapKeys()` of that call hands them out, so that a Go map which is looked at
twice may be two values with the keys in two orders (see `sameRecord`);
`ptr none` is a nil pointer; `other` is a value of any remaining kind (`other .Invalid` is the
zero `reflect.Value`, which `reflect.ValueOf(nil)` and `Elem()` of a nil
pointer give). -/
inductive Value
  | struct (fields : List StructField)
  | map (keys : List MapKey)
  | ptr (elem : Option Value)
  | other (k : OtherKind)
/-- One field of a struct: its name, whether the name is exported, its tag, and
its value, whose kind is the kind of the field's declared type. -/
inductive StructField
  | mk (Name : String) (exported : Bool) (Tag : StructTag) (value : Value)
end

/-- The tag of a field. -/
def StructField.Tag : StructField → StructTag
  | .mk _ _ t _ => t

/-- The value held in a field. -/
def StructField.value : StructField → Value
  | .mk _ _ _ v => v

/-- Whether the field name is exported. -/
def StructField.exported : StructField → Bool
  | .mk _ e _ _ => e

/-- The text of `v.Kind().String()`. -/
def Value.KindString : Value → String
  | .struct _ => "struct"
  | .map _ => "map"
  | .ptr _ => "ptr"
  | .other k => k.name

/-- Whether `v.Kind() == reflect.Struct`. -/
def Value.isStruct : Value → Bool
  | .struct _ => true
  | _ => false

/-- The ways `dbFields` can panic. -/
inductive Panic
  /-- The panic of `dbFields` itself:
  `DBFields requires a struct or a map, found: <kind>`. -/
  | unsupported (kind : String)
  /-- The panic of `reflect.Value.Interface` on a value reached through an
  unexported struct field. -/
  | unexportedField
  deriving DecidableEq, Repr

/-- The message carried by a panic. -/
def Panic.message : Panic → String
  | .unsupported kind => "DBFields requires a struct or a map, found: " ++ kind
  | .unexportedField =>
    "reflect.Value.Interface: cannot return value obtained from unexported field or method"

instance : DecidableEq (Except Panic (List String)) := fun a b =>
  match a, b with
  | .ok x, .ok y => if h : x = y then isTrue (by rw [h]) else isFalse (by intro c; cases c; exact h rfl)
  | .error x, .error y =>
    if h : x = y then isTrue (by rw [h]) else isFalse (by intro c; cases c; exact h rfl)
  | .ok _, .error _ => isFalse (by intro c; cases c)
  | .error _, .ok _ => isFalse (by intro c; cases c)

/-! ## `helpers.go` -/

/-- The `db` tag of a field: `field.Tag.Get("db")`. -/
def dbName (field : StructField) : String :=
  field.Tag.Get "db"

mutual
/-- `dbFields` of `helpers.go`. The exclude map built in lines 14-17 is used
only for key membership, which is membership in `excludeFields`. A pointer is
dereferenced once (lines 20-22); then a struct runs the field loop, a map
returns the text of its keys, and everything else panics. -/
def dbFields (values : Value) (excludeFields : List String) :
    Except Panic (List String) :=
  match values with
  | .struct fs => dbFieldsLoop fs excludeFields []
  | .map keys => .ok (keys.map MapKey.String)
  | .other k => .error (.unsupported (Value.other k).KindString)
  | .ptr none => .error (.unsupported (Value.other .Invalid).KindString)
  | .ptr (some (.struct fs)) => dbFieldsLoop fs excludeFields []
  | .ptr (some (.map keys)) => .ok (keys.map MapKey.String)
  | .ptr (some (.other k)) => .error (.unsupported (Value.other k).KindString)
  | .ptr (some (.ptr elem)) => .error (.unsupported (Value.ptr elem).KindString)
/-- The loop of lines 25-36 over the remaining fields, `fields` being the
slice built so far. -/
def dbFieldsLoop (fs : List StructField) (excludeFields : List String)
    (fields : List String) : Except Panic (List String) :=
  match fs with
  | [] => .ok fields
  | .mk _ exported tag value :: rest =>
    let dbName := tag.Get "db"
    let fields :=
      if dbName ≠ "" ∧ dbName ≠ "-" ∧ dbName ∉ excludeFields then fields ++ [dbName]
      else fields
    match value with
    | .struct sub =>
      if exported then
        match dbFields (.struct sub) excludeFields with
        | .ok more => dbFieldsLoop rest excludeFields (fields ++ more)
        | .error p => .error p
      else .error .unexportedField
    | _ => dbFieldsLoop rest excludeFields fields
end

/-! ## Specification-side vocabulary for `dbFields` -/

/-- A tag value qualifies as a column: it is not empty, not `"-"`, and not
excluded. -/
def keeps (E : List String) (name : String) : Prop :=
  name ≠ "" ∧ name ≠ "-" ∧ name ∉ E

instance (E : List String) (name : String) : Decidable (keeps E name) := by
  unfold keeps; infer_instance

/-- The slice after line 29-31 ran for one tag value. -/
def push (E fields : List String) (name : String) : List String :=
  if name ≠ "" ∧ name ≠ "-" ∧ name ∉ E then fields ++ [name] else fields

mutual
/-- The `db` tags of the fields of a struct and of the by-value structs nested
in it, at any depth; empty for a value that is not a struct. -/
def Value.tags : Value → List String
  | .struct fs => tagsOfFields fs
  | _ => []
/-- The `db` tags of a field list and of the structs nested in it. -/
def tagsOfFields : List StructField → List String
  | [] => []
  | .mk _ _ tag value :: rest => tag.Get "db" :: (value.tags ++ tagsOfFields rest)
end

/-- A struct record: a struct passed by value or through one pointer. -/
def Value.isStructRecord : Value → Bool
  | .struct _ => true
  | .ptr (some (.struct _)) => true
  | _ => false

/-- The tags of a struct record, looking through the one pointer. -/
def recordTags : Value → List String
  | .ptr (some v) => v.tags
  | v => v.tags

mutual
/-- Every struct-typed field, at any depth, has an exported name. -/
def Value.structsExported : Value → Bool
  | .struct fs => fieldsStructsExported fs
  | _ => true
/-- The same over a field list. -/
def fieldsStructsExported : List StructField → Bool
  | [] => true
  | .mk _ exported _ value :: rest =>
    (!value.isStruct || exported) && value.structsExported && fieldsStructsExported rest
end

/-- The same for a record, looking through the one pointer. -/
def recordStructsExported : Value → Bool
  | .ptr (some v) => v.structsExported
  | v => v.structsExported

/-! ## Strings and `genUpdateString` -/

/-- `strings.Join` of the Go standard library: no element gives `""`, one
element gives that element, otherwise the first element followed by
`sep` and the next element for each further element. -/
def Join : List String → String → String
  | [], _ => ""
  | [e], _ => e
  | e :: rest, sep => rest.foldl (fun b s => b ++ sep ++ s) e

/-- `genUpdateString` of `helpers.go`: the loop appends
`fmt.Sprintf("\"%s\"=:%s", f, f)` for every field, and the terms are joined
by `", "`. -/
def genUpdateString (fields : List String) : String :=
  let updateFields :=
    fields.foldl (fun updateFields f => updateFields ++ ["\"" ++ f ++ "\"=:" ++ f]) []
  Join updateFields ", "

/-! ## Errors (`github.com/pkg/errors`, `database/sql`) -/

/-- A non-nil Go error, as far as this library can tell errors apart:
the sentinel `sql.ErrNoRows`, any other error that has no `Cause` method, the
two wrappers of `pkg/errors` (the recorded stack is left out), and an error of
some other package that has a `Cause` method, which may return nil. -/
inductive Error
  | ErrNoRows
  | other (msg : String)
  | withStack (error : Error)
  | withMessage (cause : Error) (msg : String)
  | causer (msg : String) (cause : Option Error)

/-- The text of `err.Error()`. -/
def Error.text : Error → String
  | .ErrNoRows => "sql: no rows in result set"
  | .other msg => msg
  | .withStack error => error.text
  | .withMessage cause msg => msg ++ ": " ++ cause.text
  | .causer msg _ => msg

/-- `errors.WithStack`: nil stays nil, anything else gets a stack. -/
def WithStack : Option Error → Option Error
  | none => none
  | some err => some (.withStack err)

/-- `errors.Wrapf(err, format, args...)`, `message` being the formatted text:
nil stays nil, anything else gets the message and then a stack. -/
def Wrapf (err : Option Error) (message : String) : Option Error :=
  match err with
  | none => none
  | some err => some (.withStack (.withMessage err message))

/-- The loop of `errors.Cause` on a non-nil error: follow `Cause()` while the
error is not nil and has that method. -/
def Error.Cause : Error → Option Error
  | .withStack error => error.Cause
  | .withMessage cause _ => cause.Cause
  | .causer _ (some cause) => cause.Cause
  | .causer _ none => none
  | .ErrNoRows => some .ErrNoRows
  | .other msg => some (.other msg)

/-- `errors.Cause`. -/
def Cause (err : Option Error) : Option Error :=
  match err with
  | none => none
  | some err => err.Cause

/-- `IsNotFoundError` of `helpers.go`: the comparison of the cause with the
sentinel `sql.ErrNoRows`. -/
def IsNotFoundError (err : Option Error) : Bool :=
  match Cause err with
  | some .ErrNoRows => true
  | _ => false

/-- One annotation this library puts on an error on its way to the caller:
`errors.WithStack` (as in `GetE`, `SelectE`) or `errors.Wrapf` with a message
(as in `Insert`, `InsertAndGetID`, `UpdateFields`). -/
inductive Layer
  | withStack
  | wrapf (message : String)
  deriving DecidableEq, Repr

/-- Apply one annotation. -/
def Layer.apply : Layer → Option Error → Option Error
  | .withStack, err => WithStack err
  | .wrapf message, err => Wrapf err message

/-- Apply the annotations in order, the first of the list innermost. -/
def wrapLayers (layers : List Layer) (err : Option Error) : Option Error :=
  layers.foldl (fun e l => l.apply e) err

/-! ## `db.go` -/

/-- A prepared named statement: `Get` runs it with the record bound and
gives the identifier scanned into the destination, or the error. -/
structure NamedStmt where
  Get : Value → Except Error Nat

/-- The executor behind a query runner (`dbSPI`), as response functions of the
statement text and the bound arguments; `Exec` is not used by the code
modelled here. -/
structure dbSPI where
  Get : String → List Value → Option Error
  Select : String → List Value → Option Error
  NamedExec : String → Value → Option Error
  PrepareNamed : String → Except Error NamedStmt

/-- What an operation of the query runner did: the statement texts it handed
to the executor, in order; the value written through `idVar`, if any; and the
error it returned (`none` is nil). -/
structure Outcome where
  sent : List String
  idVar : Option Nat
  err : Option Error

/-- `GetE`. -/
def GetE (r : dbSPI) (query : String) (args : List Value) : Option Error :=
  WithStack (r.Get query args)

/-- `SelectE`. -/
def SelectE (r : dbSPI) (query : String) (args : List Value) : Option Error :=
  WithStack (r.Select query args)

/-- The local `csv` of `Insert` and `InsertAndGetID` (lines 87, 97): the
column clause. -/
def csv (fields : List String) : String :=
  "\"" ++ Join fields "\", \"" ++ "\""

/-- The local `csvc` of `Insert` and `InsertAndGetID` (lines 88, 98): the
placeholder clause. -/
def csvc (fields : List String) : String :=
  ":" ++ Join fields ", :"

/-- `Insert`. -/
def Insert (r : dbSPI) (table : String) (arg : Value) (excludeFields : List String) :
    Except Panic Outcome :=
  match dbFields arg excludeFields with
  | .error p => .error p
  | .ok fields =>
    let sql := "INSERT INTO " ++ table ++ " (" ++ csv fields ++ ") VALUES (" ++ csvc fields ++ ")"
    let err := r.NamedExec sql arg
    .ok { sent := [sql], idVar := none,
          err := Wrapf err ("Cannot insert into table '" ++ table ++ "'") }

/-- `InsertAndGetID`. -/
def InsertAndGetID (r : dbSPI) (table : String) (arg : Value) (excludeFields : List String)
    (idField : String) : Except Panic Outcome :=
  match dbFields arg excludeFields with
  | .error p => .error p
  | .ok fields =>
    let query := "INSERT INTO " ++ table ++ " (" ++ csv fields ++ ") VALUES (" ++ csvc fields ++
      ") RETURNING " ++ idField
    match r.PrepareNamed query with
    | .error err =>
      .ok { sent := [query], idVar := none,
            err := Wrapf (some err)
              ("Cannot prepare statement for insert into table '" ++ table ++ "'") }
    | .ok stmt =>
      match stmt.Get arg with
      | .ok id =>
        .ok { sent := [query], idVar := some id,
              err := Wrapf none ("Cannot insert into table '" ++ table ++ "'") }
      | .error err =>
        .ok { sent := [query], idVar := none,
              err := Wrapf (some err) ("Cannot insert into table '" ++ table ++ "'") }

/-- `UpdateFields`. -/
def UpdateFields (r : dbSPI) (table : String) (arg : Value) (whereSQL : String)
    (fields : List String) : Outcome :=
  let sql := "UPDATE " ++ table ++ " SET " ++ genUpdateString fields ++ " " ++ whereSQL
  let err := r.NamedExec sql arg
  { sent := [sql], idVar := none, err := Wrapf err ("Cannot update table '" ++ table ++ "'") }

/-- `Update`. -/
def Update (r : dbSPI) (table : String) (arg : Value) (whereSQL : String)
    (excludeFields : List String) : Except Panic Outcome :=
  match dbFields arg excludeFields with
  | .error p => .error p
  | .ok fields => .ok (UpdateFields r table arg whereSQL fields)

/-- The statement texts an operation handed to the executor, when it did not
panic. -/
def sentBy (res : Except Panic Outcome) : Except Panic (List String) :=
  match res with
  | .error p => .error p
  | .ok o => .ok o.sent

/-! ## Specification-side vocabulary for nesting and for the round trip -/

/-- The columns a struct gives when none of its fields is looked into: the
qualifying `db` tags of its fields in declaration order. -/
def ownColumns (E : List String) (fs : List StructField) : List String :=
  (fs.map dbName).filter (fun t => decide (keeps E t))

/-- The columns of the struct held by value in a field, one level deep;
empty for a field that is not a struct. -/
def childColumns (E : List String) (f : StructField) : List String :=
  match f.value with
  | .struct sub => ownColumns E sub
  | _ => []

/-- The columns of all nested structs, in the order of the fields holding
them. -/
def nestedColumns (E : List String) (fs : List StructField) : List String :=
  fs.flatMap (childColumns E)

/-- One level of nesting: a field that is a struct is exported and has no
struct-typed field of its own. -/
def oneLevel (fs : List StructField) : Bool :=
  fs.all (fun f =>
    match f.value with
    | .struct sub => f.exported && sub.all (fun g => !g.value.isStruct)
    | _ => true)

/-- Field by field: the own column of the field, then the columns of the
struct it holds. -/
def interleavedColumns (E : List String) (fs : List StructField) : List String :=
  fs.flatMap (fun f => ownColumns E [f] ++ childColumns E f)

/-- The characters stripped from the ends of a piece: space and double quote. -/
def isPad (c : Char) : Bool :=
  c == ' ' || c == '"'

/-- Strip the surrounding spaces and double quotes of a piece. -/
def stripPiece (p : List Char) : List Char :=
  (p.dropWhile isPad).rdropWhile isPad

/-- The parse of the round-trip property, written after the words of the
specification: take the text between the first `(` and the following `)`,
split it on commas, and strip the surrounding spaces and double quotes of each
piece. -/
def parseColumns (sql : String) : List String :=
  let afterOpen := (sql.data.dropWhile (fun c => c != '(')).drop 1
  let inside := afterOpen.takeWhile (fun c => c != ')')
  (inside.splitOn ',').map (fun p => String.mk (stripPiece p))

/-- A column name the parse can recover: no comma, no closing parenthesis, and
neither its first nor its last character is a space or a double quote. -/
def plainColumn (c : String) : Bool :=
  !c.data.contains ',' && !c.data.contains ')' &&
    !(c.data.head?.any isPad) && !(c.data.getLast?.any isPad)

/-- The characters of a column in double quotes. -/
def quotedData (c : String) : List Char :=
  '"' :: (c.data ++ ['"'])

/-- The pieces between the commas of the column clause. -/
def clausePieces (c : String) (cs : List String) : List (List Char) :=
  quotedData c :: cs.map (fun x => ' ' :: quotedData x)

/-! ## Specification-side vocabulary for error passing, map keys and recursion depth -/

/-- An error that has no `Cause` method: it is its own root cause. -/
def Error.isRoot : Error → Bool
  | .ErrNoRows => true
  | .other _ => true
  | _ => false

/-- The executor's error `exec` reaches the caller as `ret` under the context
message `msg`: nil stays nil, and an error `e` comes back wrapped, unmodified,
as message-then-stack around `e`, so that `errors.Cause` of what is returned is
`errors.Cause` of `e` (which is `e` itself when `e` has no `Cause` method) and
the text is `msg`, `": "` and the text of `e`. -/
def passesOn (exec ret : Option Error) (msg : String) : Prop :=
  (ret = none ↔ exec = none) ∧
  match exec with
  | none => ret = none
  | some e =>
    ret = some (.withStack (.withMessage e msg)) ∧
    Cause ret = Cause (some e) ∧
    (e.isRoot = true → Cause ret = some e) ∧
    ret.map Error.text = some (msg ++ ": " ++ e.text)

mutual
/-- The depth of the calls `dbFields` makes on a struct held by value: one for
the struct itself plus the deepest struct-typed field; zero for a value that
is not a struct, into which the loop does not recurse. -/
def Value.structDepth : Value → Nat
  | .struct fs => 1 + fieldsStructDepth fs
  | _ => 0
/-- The deepest by-value struct among the fields. -/
def fieldsStructDepth : List StructField → Nat
  | [] => 0
  | .mk _ _ _ value :: rest => max value.structDepth (fieldsStructDepth rest)
end

/-- The by-value nesting depth of a record, looking through the one pointer;
a record that is not a struct counts as the one call made on it. -/
def recordDepth : Value → Nat
  | .ptr (some v) => max 1 v.structDepth
  | v => max 1 v.structDepth

/-- The loop of lines 25-36 with the recursive call of line 34 handed in as
`call`; `none` means that the call ran out of its depth budget. -/
def dbFieldsLoopWith (call : Value → List String → Option (Except Panic (List String)))
    (fs : List StructField) (excludeFields : List String) (fields : List String) :
    Option (Except Panic (List String)) :=
  match fs with
  | [] => some (.ok fields)
  | .mk _ exported tag value :: rest =>
    let dbName := tag.Get "db"
    let fields :=
      if dbName ≠ "" ∧ dbName ≠ "-" ∧ dbName ∉ excludeFields then fields ++ [dbName]
      else fields
    match value with
    | .struct sub =>
      if exported then
        match call (.struct sub) excludeFields with
        | none => none
        | some (.ok more) => dbFieldsLoopWith call rest excludeFields (fields ++ more)
        | some (.error p) => some (.error p)
      else some (.error .unexportedField)
    | _ => dbFieldsLoopWith call rest excludeFields fields

/-- `dbFields` run under a budget for the depth of nested calls: every call
takes one unit, the recursive call of line 34 gets what is left, and `none`
means the budget ran out before the call returned or panicked. -/
def dbFieldsFuel : Nat → Value → List String → Option (Except Panic (List String))
  | 0, _, _ => none
  | depth + 1, values, excludeFields =>
    match values with
    | .struct fs => dbFieldsLoopWith (dbFieldsFuel depth) fs excludeFields []
    | .map keys => some (.ok (keys.map MapKey.String))
    | .other k => some (.error (.unsupported (Value.other k).KindString))
    | .ptr none => some (.error (.unsupported (Value.other .Invalid).KindString))
    | .ptr (some (.struct fs)) => dbFieldsLoopWith (dbFieldsFuel depth) fs excludeFields []
    | .ptr (some (.map keys)) => some (.ok (keys.map MapKey.String))
    | .ptr (some (.other k)) => some (.error (.unsupported (Value.other k).KindString))
    | .ptr (some (.ptr elem)) => some (.error (.unsupported (Value.ptr elem).KindString))

/-- The fields of a struct record, looking through the one pointer. -/
def recordFields : Value → List StructField
  | .struct fs => fs
  | .ptr (some (.struct fs)) => fs
  | _ => []

/-- The value the kind dispatch of `dbFields` looks at: the pointee of a
pointer (the zero value for a nil pointer), otherwise the value itself. -/
def Value.deref : Value → Value
  | .ptr (some v) => v
  | .ptr none => .other .Invalid
  | v => v

/-- Whether the value is a struct or a map. -/
def Value.isStructOrMap : Value → Bool
  | .struct _ => true
  | .map _ => true
  | _ => false

/-- Two views of one Go record, as two calls of `dbFields` may see it: the
same value, or the same map (by value or behind the one pointer) with its keys
handed out by `MapKeys()` in another order. -/
inductive sameRecord : Value → Value → Prop
  | same (v : Value) : sameRecord v v
  | map (keys other : List MapKey) (h : keys.Perm other) :
    sameRecord (.map keys) (.map other)
  | ptrMap (keys other : List MapKey) (h : keys.Perm other) :
    sameRecord (.ptr (some (.map keys))) (.ptr (some (.map other)))

/-! ## Lemmas on the field loop -/

theorem push_eq_append (E acc : List String) (name : String) :
    push E acc name = acc ++ push E [] name := by
  unfold push; split <;> simp

theorem push_nil_eq_filter (E : List String) (name : String) :
    push E [] name = [name].filter (fun t => decide (keeps E t)) := by
  unfold push keeps
  by_cases h : name ≠ "" ∧ name ≠ "-" ∧ name ∉ E
  · rw [if_pos h]; simp [List.filter, h]
  · rw [if_neg h]; simp only [List.filter, decide_eq_false h]

theorem mem_push_nil {E : List String} {name n : String} (h : n ∈ push E [] name) :
    n = name ∧ keeps E n := by
  unfold push at h
  split at h
  · rename_i hk
    simp at h
    subst h
    exact ⟨rfl, hk⟩
  · simp at h

theorem dbFieldsLoop_nil (E acc : List String) : dbFieldsLoop [] E acc = .ok acc := by
  rw [dbFieldsLoop]

theorem dbFieldsLoop_cons_struct (n : String) (e : Bool) (t : StructTag)
    (sub rest : List StructField) (E acc : List String) :
    dbFieldsLoop (.mk n e t (.struct sub) :: rest) E acc =
      if e then
        match dbFields (.struct sub) E with
        | .ok more => dbFieldsLoop rest E (push E acc (t.Get "db") ++ more)
        | .error p => .error p
      else .error .unexportedField := by
  rw [dbFieldsLoop]; rfl

theorem dbFieldsLoop_cons_flat (n : String) (e : Bool) (t : StructTag) (v : Value)
    (rest : List StructField) (E acc : List String) (hv : v.isStruct = false) :
    dbFieldsLoop (.mk n e t v :: rest) E acc =
      dbFieldsLoop rest E (push E acc (t.Get "db")) := by
  cases v with
  | struct sub => simp [Value.isStruct] at hv
  | map k => rw [dbFieldsLoop]; rfl; intro _ h; cases h
  | ptr k => rw [dbFieldsLoop]; rfl; intro _ h; cases h
  | other k => rw [dbFieldsLoop]; rfl; intro _ h; cases h

theorem dbFields_struct (fs : List StructField) (E : List String) :
    dbFields (.struct fs) E = dbFieldsLoop fs E [] := by
  rw [dbFields]

theorem dbFields_ptr_struct (fs : List StructField) (E : List String) :
    dbFields (.ptr (some (.struct fs))) E = dbFieldsLoop fs E [] := by
  rw [dbFields]

/-- The slice built so far is a prefix of the result: the loop started on
`acc` returns `acc` followed by what the loop started on the empty slice
returns, and panics exactly when that one does. -/
theorem dbFieldsLoop_acc (fs : List StructField) (E acc : List String) :
    dbFieldsLoop fs E acc =
      match dbFieldsLoop fs E [] with
      | .ok r => .ok (acc ++ r)
      | .error p => .error p := by
  induction fs generalizing acc with
  | nil => simp [dbFieldsLoop_nil]
  | cons f rest ih =>
    obtain ⟨n, e, t, v⟩ := f
    by_cases hv : v.isStruct = false
    · rw [dbFieldsLoop_cons_flat n e t v rest E acc hv,
        dbFieldsLoop_cons_flat n e t v rest E [] hv, ih (push E acc _), ih (push E [] _)]
      cases dbFieldsLoop rest E [] with
      | error p => rfl
      | ok r => simp only [push_eq_append E acc, List.append_assoc]
    · cases v with
      | struct sub =>
        rw [dbFieldsLoop_cons_struct, dbFieldsLoop_cons_struct]
        cases e with
        | false => rfl
        | true =>
          simp only [if_true]
          cases dbFields (.struct sub) E with
          | error p => rfl
          | ok more =>
            simp only
            rw [ih (push E acc _ ++ more), ih (push E [] _ ++ more)]
            cases dbFieldsLoop rest E [] with
            | error p => rfl
            | ok r => simp only [push_eq_append E acc, List.append_assoc]
      | map k => simp [Value.isStruct] at hv
      | ptr k => simp [Value.isStruct] at hv
      | other k => simp [Value.isStruct] at hv

theorem tags_struct (fs : List StructField) : (Value.struct fs).tags = tagsOfFields fs := by
  rw [Value.tags]

theorem tagsOfFields_cons (n : String) (e : Bool) (t : StructTag) (v : Value)
    (rest : List StructField) :
    tagsOfFields (.mk n e t v :: rest) = t.Get "db" :: (v.tags ++ tagsOfFields rest) := by
  rw [tagsOfFields]

theorem tags_of_not_struct (v : Value) (hv : v.isStruct = false) : v.tags = [] := by
  cases v with
  | struct sub => simp [Value.isStruct] at hv
  | map k => rw [Value.tags]; intro _ h; cases h
  | ptr k => rw [Value.tags]; intro _ h; cases h
  | other k => rw [Value.tags]; intro _ h; cases h

/-- Every name the loop returns was already in the slice or is a qualifying
tag of the fields walked, nested structs included. -/
theorem dbFieldsLoop_sound (E : List String) (fs : List StructField) :
    ∀ acc cols, dbFieldsLoop fs E acc = .ok cols →
      ∀ n ∈ cols, n ∈ acc ∨ (n ∈ tagsOfFields fs ∧ keeps E n) := by
  intro acc
  refine dbFieldsLoop.induct
    (fun v E => ∀ fs, v = .struct fs → ∀ cols, dbFieldsLoop fs E [] = .ok cols →
      ∀ n ∈ cols, n ∈ tagsOfFields fs ∧ keeps E n)
    (fun fs E acc => ∀ cols, dbFieldsLoop fs E acc = .ok cols →
      ∀ n ∈ cols, n ∈ acc ∨ (n ∈ tagsOfFields fs ∧ keeps E n))
    ?_ ?_ ?_ ?_ ?_ ?_ ?_ ?_ ?_ ?_ ?_ ?_ ?_ fs E acc
  · intro E fs ih fs' h cols hc n hn
    cases h
    rcases ih cols hc n hn with h | h
    · simp at h
    · exact h
  · intro E keys fs h; cases h
  · intro E k fs h; cases h
  · intro E fs h; cases h
  · intro E fs _ fs' h; cases h
  · intro E keys fs h; cases h
  · intro E k fs h; cases h
  · intro E k fs h; cases h
  · intro E acc cols h n hn
    rw [dbFieldsLoop_nil] at h
    cases h
    exact Or.inl hn
  · intro E acc name tag rest dbn f1 sub more hmore ih1 ih2 cols h n hn
    rw [dbFieldsLoop_cons_struct, if_pos rfl, hmore] at h
    simp only at h
    rw [tagsOfFields_cons, tags_struct]
    rcases ih2 cols h n hn with h' | h'
    · replace h' : n ∈ push E acc (tag.Get "db") ++ more := h'
      rw [push_eq_append] at h'
      simp only [List.mem_append] at h'
      rcases h' with (h' | h') | h'
      · exact Or.inl h'
      · obtain ⟨h1, h2⟩ := mem_push_nil h'
        exact Or.inr ⟨by simp [h1], h2⟩
      · rw [dbFields_struct] at hmore
        have := ih1 sub rfl more hmore n h'
        exact Or.inr ⟨by simp [this.1], this.2⟩
    · exact Or.inr ⟨by simp [h'.1], h'.2⟩
  · intro E acc name tag rest sub p hp _ cols h
    rw [dbFieldsLoop_cons_struct, if_pos rfl, hp] at h
    cases h
  · intro E acc name e tag rest sub he cols h
    rw [dbFieldsLoop_cons_struct, if_neg he] at h
    cases h
  · intro E acc name e tag v rest dbn f1 hv ih cols h n hn
    have hv' : v.isStruct = false := by
      cases v with
      | struct sub => exact absurd rfl (hv sub)
      | map k => rfl
      | ptr k => rfl
      | other k => rfl
    rw [dbFieldsLoop_cons_flat _ _ _ _ _ _ _ hv'] at h
    rw [tagsOfFields_cons, tags_of_not_struct v hv']
    rcases ih cols h n hn with h' | h'
    · replace h' : n ∈ push E acc (tag.Get "db") := h'
      rw [push_eq_append] at h'
      simp only [List.mem_append] at h'
      rcases h' with h' | h'
      · exact Or.inl h'
      · obtain ⟨h1, h2⟩ := mem_push_nil h'
        exact Or.inr ⟨by simp [h1], h2⟩
    · exact Or.inr ⟨by simp [h'.1], h'.2⟩

theorem structsExported_struct (fs : List StructField) :
    (Value.struct fs).structsExported = fieldsStructsExported fs := by
  rw [Value.structsExported]

theorem fieldsStructsExported_cons (n : String) (e : Bool) (t : StructTag) (v : Value)
    (rest : List StructField) :
    fieldsStructsExported (.mk n e t v :: rest) =
      ((!v.isStruct || e) && v.structsExported && fieldsStructsExported rest) := by
  rw [fieldsStructsExported]

/-- The loop returns a slice when every struct-typed field it can reach is
exported. -/
theorem dbFieldsLoop_total (E : List String) (fs : List StructField) :
    ∀ acc, fieldsStructsExported fs = true → ∃ cols, dbFieldsLoop fs E acc = .ok cols := by
  intro acc
  refine dbFieldsLoop.induct
    (fun v E => ∀ fs, v = .struct fs → fieldsStructsExported fs = true →
      ∃ cols, dbFieldsLoop fs E [] = .ok cols)
    (fun fs E acc => fieldsStructsExported fs = true →
      ∃ cols, dbFieldsLoop fs E acc = .ok cols)
    ?_ ?_ ?_ ?_ ?_ ?_ ?_ ?_ ?_ ?_ ?_ ?_ ?_ fs E acc
  · intro E fs ih fs' h hx
    cases h
    exact ih hx
  · intro E keys fs h; cases h
  · intro E k fs h; cases h
  · intro E fs h; cases h
  · intro E fs _ fs' h; cases h
  · intro E keys fs h; cases h
  · intro E k fs h; cases h
  · intro E k fs h; cases h
  · intro E acc _
    exact ⟨acc, dbFieldsLoop_nil E acc⟩
  · intro E acc name tag rest dbn f1 sub more hmore _ ih2 hx
    rw [fieldsStructsExported_cons] at hx
    simp only [Bool.and_eq_true] at hx
    obtain ⟨cols, hc⟩ := ih2 hx.2
    refine ⟨cols, ?_⟩
    rw [dbFieldsLoop_cons_struct, if_pos rfl, hmore]
    exact hc
  · intro E acc name tag rest sub p hp ih1 hx
    rw [fieldsStructsExported_cons] at hx
    simp only [Bool.and_eq_true] at hx
    rw [structsExported_struct] at hx
    obtain ⟨cols, hc⟩ := ih1 sub rfl hx.1.2
    rw [dbFields_struct, hc] at hp
    cases hp
  · intro E acc name e tag rest sub he hx
    rw [fieldsStructsExported_cons] at hx
    simp [Value.isStruct, he] at hx
  · intro E acc name e tag v rest dbn f1 hv ih hx
    have hv' : v.isStruct = false := by
      cases v with
      | struct sub => exact absurd rfl (hv sub)
      | map k => rfl
      | ptr k => rfl
      | other k => rfl
    rw [fieldsStructsExported_cons] at hx
    simp only [Bool.and_eq_true] at hx
    obtain ⟨cols, hc⟩ := ih hx.2
    refine ⟨cols, ?_⟩
    rw [dbFieldsLoop_cons_flat _ _ _ _ _ _ _ hv']
    exact hc

/-- On fields none of which is a struct the loop appends the qualifying tags
in declaration order. -/
theorem dbFieldsLoop_flat (E : List String) (fs : List StructField)
    (hfs : ∀ f ∈ fs, f.value.isStruct = false) (acc : List String) :
    dbFieldsLoop fs E acc =
      .ok (acc ++ (fs.map dbName).filter (fun t => decide (keeps E t))) := by
  induction fs generalizing acc with
  | nil => simp [dbFieldsLoop_nil]
  | cons f rest ih =>
    obtain ⟨n, e, t, v⟩ := f
    have hv : v.isStruct = false := hfs _ (List.mem_cons_self _ _)
    rw [dbFieldsLoop_cons_flat _ _ _ _ _ _ _ hv,
      ih (fun f hf => hfs f (List.mem_cons_of_mem _ hf)), push_eq_append,
      push_nil_eq_filter, List.map_cons, List.append_assoc, ← List.filter_append]
    rfl

/-! ## Lemmas on strings, errors and nesting -/

theorem intercalate_go_eq_foldl (sep : String) (rest : List String) (acc : String) :
    String.intercalate.go acc sep rest = rest.foldl (fun b s => b ++ sep ++ s) acc := by
  induction rest generalizing acc with
  | nil => rfl
  | cons x xs ih => simp only [String.intercalate.go, List.foldl_cons, ih]

/-- `strings.Join` agrees with joining by `String.intercalate`. -/
theorem Join_eq_intercalate (elems : List String) (sep : String) :
    Join elems sep = sep.intercalate elems := by
  cases elems with
  | nil => rfl
  | cons e rest =>
    cases rest with
    | nil => rfl
    | cons x xs =>
      rw [Join, String.intercalate, intercalate_go_eq_foldl]
      intro h
      cases h

theorem foldl_snoc_eq_map {α β : Type} (g : α → β) (l : List α) (init : List β) :
    l.foldl (fun acc a => acc ++ [g a]) init = init ++ l.map g := by
  induction l generalizing init with
  | nil => simp
  | cons a l ih => simp [ih]

/-- Wrapping a fold that joins by `sep` into `pre … post` is the fold that joins the
wrapped elements, when `post ++ sep' ++ pre` is the separator. -/
theorem wrap_foldl (pre post sep sep' : String) (hsep : sep = post ++ sep' ++ pre)
    (cs : List String) (acc : String) :
    pre ++ cs.foldl (fun b s => b ++ sep ++ s) acc ++ post =
      (cs.map (fun c => pre ++ c ++ post)).foldl (fun b s => b ++ sep' ++ s)
        (pre ++ acc ++ post) := by
  induction cs generalizing acc with
  | nil => rfl
  | cons c cs ih =>
    simp only [List.foldl_cons, List.map_cons]
    rw [ih, hsep]
    simp only [String.append_assoc]

theorem intercalate_cons (sep c : String) (cs : List String) :
    sep.intercalate (c :: cs) = cs.foldl (fun b s => b ++ sep ++ s) c := by
  rw [String.intercalate, intercalate_go_eq_foldl]

theorem csv_eq (c : String) (cs : List String) :
    csv (c :: cs) = ", ".intercalate ((c :: cs).map (fun c => "\"" ++ c ++ "\"")) := by
  rw [csv, Join_eq_intercalate, intercalate_cons, List.map_cons, intercalate_cons]
  exact wrap_foldl "\"" "\"" "\", \"" ", " (by decide) cs c

theorem csvc_eq (c : String) (cs : List String) :
    csvc (c :: cs) = ", ".intercalate ((c :: cs).map (fun c => ":" ++ c)) := by
  rw [csvc, Join_eq_intercalate, intercalate_cons, List.map_cons, intercalate_cons]
  have h := wrap_foldl ":" "" ", :" ", " (by decide) cs c
  simpa using h


theorem foldl_join_data (sep : String) (cs : List String) (acc : String) :
    (cs.foldl (fun b s => b ++ sep ++ s) acc).data =
      acc.data ++ cs.flatMap (fun s => sep.data ++ s.data) := by
  induction cs generalizing acc with
  | nil => simp
  | cons c cs ih =>
    simp only [List.foldl_cons, ih, String.data_append, List.flatMap_cons, List.append_assoc]

theorem intercalate_cons_flatMap (x : Char) (p : List Char) (ps : List (List Char)) :
    [x].intercalate (p :: ps) = p ++ ps.flatMap (fun q => x :: q) := by
  induction ps generalizing p with
  | nil => simp [List.intercalate]
  | cons q qs ih =>
    have h := ih q
    simp only [List.intercalate, List.intersperse, List.flatten_cons, List.flatMap_cons] at h ⊢
    rw [h]
    simp


theorem csv_data (c : String) (cs : List String) :
    (csv (c :: cs)).data = [','].intercalate (clausePieces c cs) := by
  rw [csv_eq, List.map_cons, intercalate_cons, foldl_join_data, clausePieces,
    intercalate_cons_flatMap, List.flatMap_map, List.flatMap_map]
  rfl

theorem stripPiece_quoted (c : String) (h : plainColumn c = true) :
    stripPiece (quotedData c) = c.data ∧ stripPiece (' ' :: quotedData c) = c.data := by
  simp only [plainColumn, Bool.and_eq_true, Bool.not_eq_true'] at h
  obtain ⟨⟨_, hhead⟩, hlast⟩ := h
  have hq : isPad '"' = true := by decide
  have hs : isPad ' ' = true := by decide
  have hcore : (List.dropWhile isPad (c.data ++ ['"'])).rdropWhile isPad = c.data := by
    cases hc : c.data with
    | nil => simp [List.rdropWhile, hq]
    | cons x xs =>
      rw [hc] at hhead hlast
      have hx : ¬ isPad x = true := by simpa using hhead
      rw [List.cons_append, List.dropWhile_cons_of_neg hx, ← List.cons_append,
        List.rdropWhile_concat_pos _ _ _ hq, List.rdropWhile_eq_self_iff]
      intro hl
      rw [List.getLast?_eq_getLast _ hl] at hlast
      simpa using hlast
  constructor
  · rw [stripPiece, quotedData, List.dropWhile_cons_of_pos hq]; exact hcore
  · rw [stripPiece, quotedData, List.dropWhile_cons_of_pos hs, List.dropWhile_cons_of_pos hq]
    exact hcore

theorem not_mem_quoted (x : Char) (c : String) (hx : x ∉ c.data) (h1 : x ≠ '"') (h2 : x ≠ ' ') :
    x ∉ quotedData c ∧ x ∉ ' ' :: quotedData c := by
  simp [quotedData, hx, h1, h2]

theorem not_mem_pieces (x : Char) (c : String) (cs : List String)
    (hx : ∀ s ∈ c :: cs, x ∉ s.data) (h1 : x ≠ '"') (h2 : x ≠ ' ') :
    ∀ l ∈ clausePieces c cs, x ∉ l := by
  intro l hl
  simp only [clausePieces, List.mem_cons, List.mem_map] at hl
  rcases hl with rfl | ⟨s, hs, rfl⟩
  · exact (not_mem_quoted x c (hx c (List.mem_cons_self _ _)) h1 h2).1
  · exact (not_mem_quoted x s (hx s (List.mem_cons_of_mem _ hs)) h1 h2).2

theorem parseColumns_insert (table : String) (c : String) (cs : List String)
    (htable : '(' ∉ table.data) (hcols : ∀ s ∈ c :: cs, plainColumn s = true) :
    parseColumns ("INSERT INTO " ++ table ++ " (" ++ csv (c :: cs) ++ ") VALUES (" ++
      csvc (c :: cs) ++ ")") = c :: cs := by
  have hdata : ("INSERT INTO " ++ table ++ " (" ++ csv (c :: cs) ++ ") VALUES (" ++
      csvc (c :: cs) ++ ")").data =
      ("INSERT INTO ".data ++ table.data ++ [' ']) ++
        ('(' :: ((csv (c :: cs)).data ++
          (')' :: (" VALUES (".data ++ (csvc (c :: cs)).data ++ ")".data)))) := by
    simp only [String.data_append, List.append_assoc, List.cons_append, List.nil_append]
  have hcomma : ∀ s ∈ c :: cs, ',' ∉ s.data := by
    intro s hs
    have := hcols s hs
    simp only [plainColumn, Bool.and_eq_true, Bool.not_eq_true'] at this
    simpa using this.1.1.1
  have hparen : ∀ s ∈ c :: cs, ')' ∉ s.data := by
    intro s hs
    have := hcols s hs
    simp only [plainColumn, Bool.and_eq_true, Bool.not_eq_true'] at this
    simpa using this.1.1.2
  have hpre : ∀ a ∈ "INSERT INTO ".data ++ table.data ++ [' '], (fun ch => ch != '(') a = true := by
    intro a ha
    simp only [List.mem_append, List.mem_singleton] at ha
    rcases ha with (ha | ha) | ha
    · revert a; decide
    · simp only [bne_iff_ne, ne_eq]; rintro rfl; exact htable ha
    · subst ha; decide
  have hin : ∀ a ∈ (csv (c :: cs)).data, (fun ch => ch != ')') a = true := by
    intro a ha
    rw [csv_data, clausePieces, intercalate_cons_flatMap] at ha
    simp only [bne_iff_ne, ne_eq]
    rintro rfl
    have hp := not_mem_pieces ')' c cs hparen (by decide) (by decide)
    simp only [List.mem_append, List.mem_flatMap, List.mem_cons] at ha
    rcases ha with ha | ⟨l, hl, ha | ha⟩
    · exact hp _ (List.mem_cons_self _ _) ha
    · exact absurd ha (by decide)
    · exact hp _ (List.mem_cons_of_mem _ hl) ha
  rw [parseColumns, hdata]
  simp only
  rw [List.dropWhile_append_of_pos hpre, List.dropWhile_cons_of_neg (by decide), List.drop_one,
    List.tail_cons, List.takeWhile_append_of_pos hin, List.takeWhile_cons_of_neg (by decide),
    List.append_nil, csv_data,
    List.splitOn_intercalate _ ',' (not_mem_pieces ',' c cs hcomma (by decide) (by decide))
      (by simp [clausePieces])]
  simp only [clausePieces, List.map_cons, List.map_map, (stripPiece_quoted c (hcols c (List.mem_cons_self _ _))).1]
  congr 1
  conv_rhs => rw [← List.map_id cs]
  apply List.map_congr_left
  intro s hs
  simp only [Function.comp, (stripPiece_quoted s (hcols s (List.mem_cons_of_mem _ hs))).2, id]

theorem Cause_WithStack (err : Option Error) : Cause (WithStack err) = Cause err := by
  cases err <;> rfl

theorem Cause_Wrapf (err : Option Error) (message : String) :
    Cause (Wrapf err message) = Cause err := by
  cases err <;> rfl

theorem Cause_wrapLayers (layers : List Layer) (err : Option Error) :
    Cause (wrapLayers layers err) = Cause err := by
  unfold wrapLayers
  induction layers generalizing err with
  | nil => rfl
  | cons l ls ih =>
    rw [List.foldl_cons, ih]
    cases l with
    | withStack => exact Cause_WithStack err
    | wrapf m => exact Cause_Wrapf err m

theorem interleaved_perm (E : List String) (fs : List StructField) :
    (interleavedColumns E fs).Perm (ownColumns E fs ++ nestedColumns E fs) := by
  induction fs with
  | nil => exact List.Perm.refl _
  | cons f rest ih =>
    have h1 : interleavedColumns E (f :: rest) =
        ownColumns E [f] ++ (childColumns E f ++ interleavedColumns E rest) := by
      simp [interleavedColumns, List.flatMap_cons]
    have h2 : ownColumns E (f :: rest) = ownColumns E [f] ++ ownColumns E rest := by
      simp only [ownColumns, List.map_cons, List.map_nil]
      rw [← List.filter_append]; rfl
    have h3 : nestedColumns E (f :: rest) = childColumns E f ++ nestedColumns E rest := by
      simp [nestedColumns, List.flatMap_cons]
    rw [h1, h2, h3, List.append_assoc]
    refine List.Perm.append_left _ ?_
    refine (List.Perm.append_left _ ih).trans ?_
    rw [← List.append_assoc, ← List.append_assoc]
    exact List.Perm.append_right _ List.perm_append_comm

theorem dbFieldsLoop_oneLevel (E : List String) (fs : List StructField)
    (h : oneLevel fs = true) :
    dbFieldsLoop fs E [] = .ok (interleavedColumns E fs) := by
  induction fs with
  | nil => rw [dbFieldsLoop_nil]; rfl
  | cons f rest ih =>
    obtain ⟨n, e, t, v⟩ := f
    have hrest : oneLevel rest = true := by
      simp only [oneLevel, List.all_cons, Bool.and_eq_true] at h
      exact h.2
    have hown : push E [] (t.Get "db") = ownColumns E [.mk n e t v] := by
      rw [push_nil_eq_filter]; rfl
    have hcons : interleavedColumns E (.mk n e t v :: rest) =
        ownColumns E [.mk n e t v] ++ childColumns E (.mk n e t v) ++
          interleavedColumns E rest := by
      simp [interleavedColumns, List.flatMap_cons]
    cases v with
    | struct sub =>
      have hf : e = true ∧ ∀ g ∈ sub, g.value.isStruct = false := by
        simp only [oneLevel, List.all_cons, Bool.and_eq_true, StructField.value,
          StructField.exported, List.all_eq_true, Bool.not_eq_true'] at h
        exact h.1
      have hsub : dbFields (.struct sub) E = .ok (ownColumns E sub) := by
        rw [dbFields_struct, dbFieldsLoop_flat E sub hf.2 []]; rfl
      rw [dbFieldsLoop_cons_struct, if_pos hf.1, hsub]
      simp only
      rw [dbFieldsLoop_acc, ih hrest, hown, hcons]
      rfl
    | map k =>
      rw [dbFieldsLoop_cons_flat n e t (Value.map k) rest E [] rfl, dbFieldsLoop_acc, ih hrest, hown, hcons]
      simp [childColumns, StructField.value]
    | ptr k =>
      rw [dbFieldsLoop_cons_flat n e t (Value.ptr k) rest E [] rfl, dbFieldsLoop_acc, ih hrest, hown, hcons]
      simp [childColumns, StructField.value]
    | other k =>
      rw [dbFieldsLoop_cons_flat n e t (Value.other k) rest E [] rfl, dbFieldsLoop_acc, ih hrest, hown, hcons]
      simp [childColumns, StructField.value]

/-! ## Lemmas on error passing, exclusion, field position and recursion depth -/

theorem passesOn_Wrapf (exec : Option Error) (msg : String) :
    passesOn exec (Wrapf exec msg) msg := by
  cases exec with
  | none => exact ⟨Iff.rfl, rfl⟩
  | some e =>
    refine ⟨?_, rfl, rfl, ?_, rfl⟩
    · simp [Wrapf]
    · intro h
      cases e <;> first | rfl | cases h

/-- `dbFields` returns a list on a struct record whose struct-typed fields are
all exported. -/
theorem dbFields_returns_of_exported (R : Value) (E : List String)
    (hR : R.isStructRecord = true) (hx : recordStructsExported R = true) :
    ∃ cols, dbFields R E = .ok cols := by
  cases R with
  | struct fs =>
    rw [dbFields_struct]
    exact dbFieldsLoop_total E fs [] (by simpa [recordStructsExported, structsExported_struct] using hx)
  | map k => simp [Value.isStructRecord] at hR
  | other k => simp [Value.isStructRecord] at hR
  | ptr o =>
    cases o with
    | none => simp [Value.isStructRecord] at hR
    | some v =>
      cases v with
      | struct fs =>
        rw [dbFields_ptr_struct]
        exact dbFieldsLoop_total E fs []
          (by simpa [recordStructsExported, structsExported_struct] using hx)
      | map k => simp [Value.isStructRecord] at hR
      | other k => simp [Value.isStructRecord] at hR
      | ptr o => simp [Value.isStructRecord] at hR

theorem genUpdateString_eq_intercalate (C : List String) :
    genUpdateString C = ", ".intercalate (C.map (fun c => "\"" ++ c ++ "\"=:" ++ c)) := by
  rw [genUpdateString]
  simp only [foldl_snoc_eq_map, List.nil_append, Join_eq_intercalate]

/-- No column `dbFields` returns for a struct record is excluded. -/
theorem dbFields_not_excluded (R : Value) (E cols : List String)
    (hR : R.isStructRecord = true) (h : dbFields R E = .ok cols) : ∀ c ∈ cols, c ∉ E := by
  have key : ∀ fs : List StructField, dbFieldsLoop fs E [] = .ok cols → ∀ c ∈ cols, c ∉ E := by
    intro fs hc c hcm
    rcases dbFieldsLoop_sound E fs [] cols hc c hcm with h | h
    · simp at h
    · exact h.2.2.2
  cases R with
  | struct fs => exact key fs (by rwa [dbFields_struct] at h)
  | map k => simp [Value.isStructRecord] at hR
  | other k => simp [Value.isStructRecord] at hR
  | ptr o =>
    cases o with
    | none => simp [Value.isStructRecord] at hR
    | some v =>
      cases v with
      | struct fs => exact key fs (by rwa [dbFields_ptr_struct] at h)
      | map k => simp [Value.isStructRecord] at hR
      | other k => simp [Value.isStructRecord] at hR
      | ptr o => simp [Value.isStructRecord] at hR

theorem push_filter (E : List String) (name : String) :
    push E [] name = (push [] [] name).filter (fun c => decide (c ∉ E)) := by
  unfold push
  by_cases h1 : name ≠ "" ∧ name ≠ "-"
  · by_cases h2 : name ∈ E
    · have hn : ¬ (name ≠ "" ∧ name ≠ "-" ∧ name ∉ E) := fun h => h.2.2 h2
      have hp : (name ≠ "" ∧ name ≠ "-" ∧ name ∉ ([] : List String)) :=
        ⟨h1.1, h1.2, List.not_mem_nil _⟩
      rw [if_neg hn, if_pos hp]
      simp [h2]
    · have hy : (name ≠ "" ∧ name ≠ "-" ∧ name ∉ E) := ⟨h1.1, h1.2, h2⟩
      have hp : (name ≠ "" ∧ name ≠ "-" ∧ name ∉ ([] : List String)) :=
        ⟨h1.1, h1.2, List.not_mem_nil _⟩
      rw [if_pos hy, if_pos hp]
      simp [h2]
  · have hn : ¬ (name ≠ "" ∧ name ≠ "-" ∧ name ∉ E) := fun h => h1 ⟨h.1, h.2.1⟩
    have hp : ¬ (name ≠ "" ∧ name ≠ "-" ∧ name ∉ ([] : List String)) :=
      fun h => h1 ⟨h.1, h.2.1⟩
    rw [if_neg hn, if_neg hp]
    rfl

/-- The loop under an exclude list returns what the loop without exclusion
returns, with the excluded names filtered out, and panics exactly when that
one does. -/
theorem dbFieldsLoop_exclude (E : List String) (fs : List StructField) :
    ∀ acc, dbFieldsLoop fs E acc =
      match dbFieldsLoop fs [] [] with
      | .ok all => .ok (acc ++ all.filter (fun c => decide (c ∉ E)))
      | .error p => .error p := by
  intro acc
  refine dbFieldsLoop.induct
    (fun v E => ∀ fs, v = .struct fs → dbFieldsLoop fs E [] =
      match dbFieldsLoop fs [] [] with
      | .ok all => .ok (all.filter (fun c => decide (c ∉ E)))
      | .error p => .error p)
    (fun fs E acc => dbFieldsLoop fs E acc =
      match dbFieldsLoop fs [] [] with
      | .ok all => .ok (acc ++ all.filter (fun c => decide (c ∉ E)))
      | .error p => .error p)
    ?_ ?_ ?_ ?_ ?_ ?_ ?_ ?_ ?_ ?_ ?_ ?_ ?_ fs E acc
  · intro E fs ih fs' h
    cases h
    rw [ih]
    cases dbFieldsLoop fs [] [] <;> simp
  · intro E keys fs h; cases h
  · intro E k fs h; cases h
  · intro E fs h; cases h
  · intro E fs _ fs' h; cases h
  · intro E keys fs h; cases h
  · intro E k fs h; cases h
  · intro E k fs h; cases h
  · intro E acc
    simp [dbFieldsLoop_nil]
  · intro E acc name tag rest dbn f1 sub more hmore ih1 ih2
    have h1 := ih1 sub rfl
    rw [dbFields_struct] at hmore
    rw [hmore] at h1
    rw [dbFieldsLoop_cons_struct, if_pos rfl, dbFields_struct, hmore]
    simp only
    rw [dbFieldsLoop_cons_struct, if_pos rfl, dbFields_struct]
    replace ih2 : dbFieldsLoop rest E (push E acc (tag.Get "db") ++ more) = _ := ih2
    rw [ih2]
    cases hs : dbFieldsLoop sub [] [] with
    | error p => rw [hs] at h1; cases h1
    | ok alls =>
      rw [hs] at h1
      simp only at h1
      cases h1
      simp only
      rw [dbFieldsLoop_acc rest [] (push [] [] (tag.Get "db") ++ alls)]
      cases dbFieldsLoop rest [] [] with
      | error p => rfl
      | ok allr =>
        have hf1 : f1 = acc ++ (push [] [] (tag.Get "db")).filter (fun c => decide (c ∉ E)) := by
          show push E acc (tag.Get "db") = _
          rw [push_eq_append, push_filter]
        simp only [hf1, List.filter_append, List.append_assoc]
  · intro E acc name tag rest sub p hp ih1
    have h1 := ih1 sub rfl
    rw [dbFields_struct] at hp
    rw [hp] at h1
    rw [dbFieldsLoop_cons_struct, if_pos rfl, dbFields_struct, hp]
    simp only
    rw [dbFieldsLoop_cons_struct, if_pos rfl, dbFields_struct]
    cases hs : dbFieldsLoop sub [] [] with
    | error q => rw [hs] at h1; cases h1; rfl
    | ok alls => rw [hs] at h1; cases h1
  · intro E acc name e tag rest sub he
    rw [dbFieldsLoop_cons_struct, if_neg he, dbFieldsLoop_cons_struct, if_neg he]
  · intro E acc name e tag v rest dbn f1 hv ih
    have hv' : v.isStruct = false := by
      cases v with
      | struct sub => exact absurd rfl (hv sub)
      | map k => rfl
      | ptr k => rfl
      | other k => rfl
    replace ih : dbFieldsLoop rest E (push E acc (tag.Get "db")) = _ := ih
    rw [dbFieldsLoop_cons_flat _ _ _ _ _ _ _ hv', ih, dbFieldsLoop_cons_flat _ _ _ _ _ _ _ hv',
      dbFieldsLoop_acc rest [] (push [] [] (tag.Get "db"))]
    cases dbFieldsLoop rest [] [] with
    | error p => rfl
    | ok allr =>
      have hf1 : f1 = acc ++ (push [] [] (tag.Get "db")).filter (fun c => decide (c ∉ E)) := by
        show push E acc (tag.Get "db") = _
        rw [push_eq_append, push_filter]
      simp only [hf1, List.filter_append, List.append_assoc]


theorem dbFields_of_structRecord (R : Value) (E : List String)
    (hR : R.isStructRecord = true) : dbFields R E = dbFieldsLoop (recordFields R) E [] := by
  cases R with
  | struct fs => rw [dbFields_struct]; rfl
  | map k => simp [Value.isStructRecord] at hR
  | other k => simp [Value.isStructRecord] at hR
  | ptr o =>
    cases o with
    | none => simp [Value.isStructRecord] at hR
    | some v =>
      cases v with
      | struct fs => rw [dbFields_ptr_struct]; rfl
      | map k => simp [Value.isStructRecord] at hR
      | other k => simp [Value.isStructRecord] at hR
      | ptr o => simp [Value.isStructRecord] at hR

/-- The loop over `pre ++ post` is the loop over `pre` followed by the loop
over `post` on the slice the first one built. -/
theorem dbFieldsLoop_append (pre post : List StructField) (E acc : List String) :
    dbFieldsLoop (pre ++ post) E acc =
      match dbFieldsLoop pre E acc with
      | .ok a => dbFieldsLoop post E a
      | .error p => .error p := by
  induction pre generalizing acc with
  | nil => simp [dbFieldsLoop_nil]
  | cons f rest ih =>
    obtain ⟨n, e, t, v⟩ := f
    by_cases hv : v.isStruct = false
    · rw [List.cons_append, dbFieldsLoop_cons_flat n e t v _ E acc hv,
        dbFieldsLoop_cons_flat n e t v rest E acc hv, ih]
    · cases v with
      | struct sub =>
        rw [List.cons_append, dbFieldsLoop_cons_struct, dbFieldsLoop_cons_struct]
        cases e with
        | false => rfl
        | true =>
          simp only [if_true]
          cases dbFields (.struct sub) E with
          | error p => rfl
          | ok more => simp only [ih]
      | map k => simp [Value.isStruct] at hv
      | ptr k => simp [Value.isStruct] at hv
      | other k => simp [Value.isStruct] at hv

theorem structDepth_struct (fs : List StructField) :
    (Value.struct fs).structDepth = 1 + fieldsStructDepth fs := by
  rw [Value.structDepth]

theorem fieldsStructDepth_cons (n : String) (e : Bool) (t : StructTag) (v : Value)
    (rest : List StructField) :
    fieldsStructDepth (.mk n e t v :: rest) = max v.structDepth (fieldsStructDepth rest) := by
  rw [fieldsStructDepth]

theorem dbFieldsLoopWith_nil (call : Value → List String → Option (Except Panic (List String)))
    (E acc : List String) : dbFieldsLoopWith call [] E acc = some (.ok acc) := by
  rw [dbFieldsLoopWith]

theorem dbFieldsLoopWith_cons_struct
    (call : Value → List String → Option (Except Panic (List String)))
    (n : String) (e : Bool) (t : StructTag) (sub rest : List StructField)
    (E acc : List String) :
    dbFieldsLoopWith call (.mk n e t (.struct sub) :: rest) E acc =
      if e then
        match call (.struct sub) E with
        | none => none
        | some (.ok more) => dbFieldsLoopWith call rest E (push E acc (t.Get "db") ++ more)
        | some (.error p) => some (.error p)
      else some (.error .unexportedField) := by
  rw [dbFieldsLoopWith]; rfl

theorem dbFieldsLoopWith_cons_flat
    (call : Value → List String → Option (Except Panic (List String)))
    (n : String) (e : Bool) (t : StructTag) (v : Value)
    (rest : List StructField) (E acc : List String) (hv : v.isStruct = false) :
    dbFieldsLoopWith call (.mk n e t v :: rest) E acc =
      dbFieldsLoopWith call rest E (push E acc (t.Get "db")) := by
  cases v with
  | struct sub => simp [Value.isStruct] at hv
  | map k => rw [dbFieldsLoopWith]; rfl; intro _ h; cases h
  | ptr k => rw [dbFieldsLoopWith]; rfl; intro _ h; cases h
  | other k => rw [dbFieldsLoopWith]; rfl; intro _ h; cases h

/-- When the recursive call handed in answers as `dbFields` on every struct of
depth at most `d`, the loop over fields of depth at most `d` answers as the
loop of `dbFields`. -/
theorem dbFieldsLoopWith_eq (call : Value → List String → Option (Except Panic (List String)))
    (d : Nat) (E : List String)
    (hcall : ∀ sub : List StructField, (Value.struct sub).structDepth ≤ d →
      call (.struct sub) E = some (dbFields (.struct sub) E))
    (fs : List StructField) (hfs : fieldsStructDepth fs ≤ d) (acc : List String) :
    dbFieldsLoopWith call fs E acc = some (dbFieldsLoop fs E acc) := by
  induction fs generalizing acc with
  | nil => rw [dbFieldsLoopWith_nil, dbFieldsLoop_nil]
  | cons f rest ih =>
    obtain ⟨n, e, t, v⟩ := f
    rw [fieldsStructDepth_cons] at hfs
    have hrest : fieldsStructDepth rest ≤ d := le_trans (le_max_right _ _) hfs
    have hv : v.structDepth ≤ d := le_trans (le_max_left _ _) hfs
    cases v with
    | struct sub =>
      rw [dbFieldsLoopWith_cons_struct, dbFieldsLoop_cons_struct, hcall sub hv]
      cases e with
      | false => rfl
      | true =>
        simp only [if_true]
        cases dbFields (.struct sub) E with
        | error p => rfl
        | ok more => exact ih hrest _
    | map k =>
      rw [dbFieldsLoopWith_cons_flat call n e t (.map k) rest E acc rfl,
        dbFieldsLoop_cons_flat n e t (.map k) rest E acc rfl]
      exact ih hrest _
    | ptr k =>
      rw [dbFieldsLoopWith_cons_flat call n e t (.ptr k) rest E acc rfl,
        dbFieldsLoop_cons_flat n e t (.ptr k) rest E acc rfl]
      exact ih hrest _
    | other k =>
      rw [dbFieldsLoopWith_cons_flat call n e t (.other k) rest E acc rfl,
        dbFieldsLoop_cons_flat n e t (.other k) rest E acc rfl]
      exact ih hrest _

theorem dbFieldsFuel_struct (d : Nat) (fs : List StructField) (E : List String) :
    dbFieldsFuel (d + 1) (.struct fs) E = dbFieldsLoopWith (dbFieldsFuel d) fs E [] := by
  rw [dbFieldsFuel]

theorem dbFieldsFuel_ptr_struct (d : Nat) (fs : List StructField) (E : List String) :
    dbFieldsFuel (d + 1) (.ptr (some (.struct fs))) E =
      dbFieldsLoopWith (dbFieldsFuel d) fs E [] := by
  rw [dbFieldsFuel]

/-- A budget of the struct depth is enough on a struct. -/
theorem dbFieldsFuel_struct_eq (E : List String) (d : Nat) :
    ∀ fs : List StructField, (Value.struct fs).structDepth ≤ d →
      dbFieldsFuel d (.struct fs) E = some (dbFields (.struct fs) E) := by
  induction d with
  | zero =>
    intro fs h
    rw [structDepth_struct] at h
    omega
  | succ d ih =>
    intro fs h
    rw [structDepth_struct] at h
    rw [dbFieldsFuel_struct, dbFields_struct]
    exact dbFieldsLoopWith_eq (dbFieldsFuel d) d E ih fs (by omega) []

/-- A budget of the record depth is enough on every value. -/
theorem dbFieldsFuel_eq (v : Value) (E : List String) (k : Nat) :
    dbFieldsFuel (recordDepth v + k) v E = some (dbFields v E) := by
  cases v with
  | struct fs =>
    exact dbFieldsFuel_struct_eq E _ fs (by simp only [recordDepth]; omega)
  | map keys =>
    have h : recordDepth (.map keys) + k = k + 1 := by
      simp [recordDepth, Value.structDepth]; omega
    rw [h, dbFieldsFuel, dbFields]
  | other o =>
    have h : recordDepth (.other o) + k = k + 1 := by
      simp [recordDepth, Value.structDepth]; omega
    rw [h, dbFieldsFuel, dbFields]
  | ptr o =>
    cases o with
    | none =>
      have h : recordDepth (.ptr none) + k = k + 1 := by
        simp [recordDepth, Value.structDepth]; omega
      rw [h, dbFieldsFuel, dbFields]
    | some v =>
      cases v with
      | struct fs =>
        have h : recordDepth (.ptr (some (.struct fs))) + k = (fieldsStructDepth fs + k) + 1 := by
          simp [recordDepth, structDepth_struct]; omega
        rw [h, dbFieldsFuel_ptr_struct, dbFields_ptr_struct]
        exact dbFieldsLoopWith_eq (dbFieldsFuel _) _ E
          (fun sub hs => dbFieldsFuel_struct_eq E _ sub hs) fs (by omega) []
      | map keys =>
        have h : recordDepth (.ptr (some (.map keys))) + k = k + 1 := by
          simp [recordDepth, Value.structDepth]; omega
        rw [h, dbFieldsFuel, dbFields]
      | other o =>
        have h : recordDepth (.ptr (some (.other o))) + k = k + 1 := by
          simp [recordDepth, Value.structDepth]; omega
        rw [h, dbFieldsFuel, dbFields]
      | ptr o =>
        have h : recordDepth (.ptr (some (.ptr o))) + k = k + 1 := by
          simp [recordDepth, Value.structDepth]; omega
        rw [h, dbFieldsFuel, dbFields]


theorem fieldsStructDepth_append_ge (pre post : List StructField) (f : StructField) :
    f.value.structDepth ≤ fieldsStructDepth (pre ++ f :: post) := by
  induction pre with
  | nil =>
    obtain ⟨n, e, t, v⟩ := f
    rw [List.nil_append, fieldsStructDepth_cons]
    exact le_max_left _ _
  | cons g rest ih =>
    obtain ⟨n, e, t, v⟩ := g
    rw [List.cons_append, fieldsStructDepth_cons]
    exact le_trans ih (le_max_right _ _)

theorem sizeOf_append_gt (pre post : List StructField) (f : StructField) :
    sizeOf f < sizeOf (pre ++ f :: post) := by
  induction pre with
  | nil => simp only [List.nil_append, List.cons.sizeOf_spec]; omega
  | cons g rest ih => simp only [List.cons_append, List.cons.sizeOf_spec]; omega

/-- The loop never raises the unsupported-shape panic: the recursive call is
made on structs only. -/
theorem dbFieldsLoop_not_unsupported (E : List String) (fs : List StructField) :
    ∀ acc kind, dbFieldsLoop fs E acc ≠ .error (.unsupported kind) := by
  intro acc
  refine dbFieldsLoop.induct
    (fun v E => ∀ fs, v = .struct fs → ∀ kind, dbFieldsLoop fs E [] ≠ .error (.unsupported kind))
    (fun fs E acc => ∀ kind, dbFieldsLoop fs E acc ≠ .error (.unsupported kind))
    ?_ ?_ ?_ ?_ ?_ ?_ ?_ ?_ ?_ ?_ ?_ ?_ ?_ fs E acc
  · intro E fs ih fs' h
    cases h
    exact ih
  · intro E keys fs h; cases h
  · intro E k fs h; cases h
  · intro E fs h; cases h
  · intro E fs _ fs' h; cases h
  · intro E keys fs h; cases h
  · intro E k fs h; cases h
  · intro E k fs h; cases h
  · intro E acc kind h
    rw [dbFieldsLoop_nil] at h
    cases h
  · intro E acc name tag rest dbn f1 sub more hmore _ ih2 kind
    rw [dbFieldsLoop_cons_struct, if_pos rfl, hmore]
    exact ih2 kind
  · intro E acc name tag rest sub p hp ih1 kind h
    rw [dbFieldsLoop_cons_struct, if_pos rfl, hp] at h
    simp only [Except.error.injEq] at h
    rw [dbFields_struct, h] at hp
    exact ih1 sub rfl kind hp
  · intro E acc name e tag rest sub he kind h
    rw [dbFieldsLoop_cons_struct, if_neg he] at h
    cases h
  · intro E acc name e tag v rest dbn f1 hv ih kind
    have hv' : v.isStruct = false := by
      cases v with
      | struct sub => exact absurd rfl (hv sub)
      | map k => rfl
      | ptr k => rfl
      | other k => rfl
    rw [dbFieldsLoop_cons_flat _ _ _ _ _ _ _ hv']
    exact ih kind

/-- `dbFields` raises the unsupported-shape panic exactly on a record that,
after one dereference, is neither a struct nor a map, and then names the kind
it found. -/
theorem dbFields_unsupported_iff (v : Value) (E : List String) :
    ((∃ kind, dbFields v E = .error (.unsupported kind)) ↔ v.deref.isStructOrMap = false) ∧
    (v.deref.isStructOrMap = false →
      dbFields v E = .error (.unsupported v.deref.KindString)) := by
  cases v with
  | struct fs =>
    simp only [Value.deref, Value.isStructOrMap, dbFields_struct]
    refine ⟨⟨fun ⟨kind, h⟩ => absurd h (dbFieldsLoop_not_unsupported E fs [] kind), ?_⟩, ?_⟩ <;>
      intro h <;> cases h
  | map k =>
    refine ⟨⟨?_, ?_⟩, ?_⟩
    · rintro ⟨kind, h⟩; rw [dbFields] at h; cases h
    · intro h; cases h
    · intro h; cases h
  | other k => exact ⟨⟨fun _ => rfl, fun _ => ⟨_, by rw [dbFields]⟩⟩, fun _ => by rw [dbFields]; rfl⟩
  | ptr o =>
    cases o with
    | none => exact ⟨⟨fun _ => rfl, fun _ => ⟨_, by rw [dbFields]⟩⟩, fun _ => by rw [dbFields]; rfl⟩
    | some v =>
      cases v with
      | struct fs =>
        simp only [Value.deref, Value.isStructOrMap, dbFields_ptr_struct]
        refine ⟨⟨fun ⟨kind, h⟩ => absurd h (dbFieldsLoop_not_unsupported E fs [] kind), ?_⟩, ?_⟩ <;>
          intro h <;> cases h
      | map k =>
        refine ⟨⟨?_, ?_⟩, ?_⟩
        · rintro ⟨kind, h⟩; rw [dbFields] at h; cases h
        · intro h; cases h
        · intro h; cases h
      | other k =>
        exact ⟨⟨fun _ => rfl, fun _ => ⟨_, by rw [dbFields]⟩⟩, fun _ => by rw [dbFields]; rfl⟩
      | ptr o =>
        exact ⟨⟨fun _ => rfl, fun _ => ⟨_, by rw [dbFields]⟩⟩, fun _ => by rw [dbFields]; rfl⟩

/-! ## The claims -/

/-- C1. For a struct record `R` (by value or through one pointer) and an
exclude list `E`, every name that `dbFields R E` returns is the `db` tag of a
field of `R` or of a by-value struct nested in `R`, is not empty, is not `"-"`
and is not in `E`; and `dbFields` does return a list whenever the struct-typed
fields of `R` are exported. -/
theorem dbFields_names_are_kept_tags (R : Value) (E : List String)
    (hR : R.isStructRecord = true) :
    (recordStructsExported R = true → ∃ cols, dbFields R E = .ok cols) ∧
    ∀ cols, dbFields R E = .ok cols →
      ∀ n ∈ cols, n ∈ recordTags R ∧ n ≠ "" ∧ n ≠ "-" ∧ n ∉ E := by
  have key : ∀ fs : List StructField,
      (fieldsStructsExported fs = true → ∃ cols, dbFieldsLoop fs E [] = .ok cols) ∧
      ∀ cols, dbFieldsLoop fs E [] = .ok cols →
        ∀ n ∈ cols, n ∈ tagsOfFields fs ∧ n ≠ "" ∧ n ≠ "-" ∧ n ∉ E := by
    intro fs
    refine ⟨dbFieldsLoop_total E fs [], ?_⟩
    intro cols hc n hn
    rcases dbFieldsLoop_sound E fs [] cols hc n hn with h | h
    · simp at h
    · exact h
  cases R with
  | struct fs =>
    simpa [dbFields_struct, recordTags, recordStructsExported, tags_struct,
      structsExported_struct] using key fs
  | map k => simp [Value.isStructRecord] at hR
  | other k => simp [Value.isStructRecord] at hR
  | ptr o =>
    cases o with
    | none => simp [Value.isStructRecord] at hR
    | some v =>
      cases v with
      | struct fs =>
        simpa [dbFields_ptr_struct, recordTags, recordStructsExported, tags_struct,
          structsExported_struct] using key fs
      | map k => simp [Value.isStructRecord] at hR
      | other k => simp [Value.isStructRecord] at hR
      | ptr o => simp [Value.isStructRecord] at hR

/-- C1, at a record with a nested struct, passed through a pointer. -/
theorem dbFields_names_are_kept_tags_witness :
    (dbFields (.ptr (some (.struct
        [.mk "ID" true [("db", "id")] (.other .Int),
         .mk "Meta" true [("db", "-")] (.struct [.mk "Note" true [("db", "note")] (.other .Str)]),
         .mk "Name" true [("db", "name")] (.other .Str)]))) ["id"] = .ok ["note", "name"]) ∧
    ∀ n ∈ ["note", "name"],
      n ∈ recordTags (.ptr (some (.struct
        [.mk "ID" true [("db", "id")] (.other .Int),
         .mk "Meta" true [("db", "-")] (.struct [.mk "Note" true [("db", "note")] (.other .Str)]),
         .mk "Name" true [("db", "name")] (.other .Str)]))) ∧ n ≠ "" ∧ n ≠ "-" ∧ n ∉ ["id"] :=
  ⟨by decide, (dbFields_names_are_kept_tags _ ["id"] (by decide)).2 _ (by decide)⟩

/-- C2. For a struct record none of whose fields has a struct type (by value
or through one pointer), `dbFields` returns the `db` tags of the fields in
declaration order, keeping exactly the tags that are not empty, not `"-"` and
not in `E`. -/
theorem dbFields_flat_struct (fs : List StructField) (E : List String)
    (hfs : ∀ f ∈ fs, f.value.isStruct = false) :
    dbFields (.struct fs) E =
      .ok ((fs.map dbName).filter (fun t => decide (t ≠ "" ∧ t ≠ "-" ∧ t ∉ E))) ∧
    dbFields (.ptr (some (.struct fs))) E =
      .ok ((fs.map dbName).filter (fun t => decide (t ≠ "" ∧ t ≠ "-" ∧ t ∉ E))) := by
  have h := dbFieldsLoop_flat E fs hfs []
  rw [List.nil_append] at h
  exact ⟨by rw [dbFields_struct, h]; rfl, by rw [dbFields_ptr_struct, h]; rfl⟩

/-- C2, at the record `ID` (tag `id`), `Name` (tag `name`), `internal` (no
tag) with `id` excluded: the result is `["name"]`. -/
theorem dbFields_flat_struct_witness :
    dbFields (.struct
        [.mk "ID" true [("db", "id")] (.other .Int),
         .mk "Name" true [("db", "name")] (.other .Str),
         .mk "internal" false [] (.other .Str)]) ["id"] = .ok ["name"] :=
  ((dbFields_flat_struct
      [.mk "ID" true [("db", "id")] (.other .Int),
       .mk "Name" true [("db", "name")] (.other .Str),
       .mk "internal" false [] (.other .Str)] ["id"] (by decide)).1).trans (by decide)

/-- C3. When the column list `C` that `dbFields` returns for the record is not
empty, the one statement text `Insert` hands to the executor is
`INSERT INTO t ("c1", ..., "cn") VALUES (:c1, ..., :cn)`: both clauses are the
columns of `C` in order, one term per column, joined by `", "`, the term being
the column in double quotes in the column clause and `:` followed by the
column in the placeholder clause. -/
theorem Insert_statement_text (r : dbSPI) (table : String) (arg : Value)
    (E C : List String) (hC : C ≠ []) (hfields : dbFields arg E = .ok C) :
    sentBy (Insert r table arg E) =
      .ok ["INSERT INTO " ++ table ++ " (" ++
        ", ".intercalate (C.map (fun c => "\"" ++ c ++ "\"")) ++ ") VALUES (" ++
        ", ".intercalate (C.map (fun c => ":" ++ c)) ++ ")"] := by
  cases C with
  | nil => exact absurd rfl hC
  | cons c cs =>
    rw [Insert, hfields]
    simp only [sentBy, csv_eq, csvc_eq]

/-- C3, at the table `users` and a record with the columns `name`, `mail`. -/
theorem Insert_statement_text_witness :
    sentBy (Insert ⟨fun _ _ => none, fun _ _ => none, fun _ _ => none, fun _ => .error .ErrNoRows⟩
      "users"
      (.struct [.mk "ID" true [("db", "id")] (.other .Int),
                .mk "Name" true [("db", "name")] (.other .Str),
                .mk "Mail" true [("db", "mail")] (.other .Str)]) ["id"]) =
      .ok ["INSERT INTO users (\"name\", \"mail\") VALUES (:name, :mail)"] :=
  (Insert_statement_text _ "users" _ ["id"] ["name", "mail"] (by decide) (by decide)).trans
    (by decide)

/-- C4. `genUpdateString C` is the terms `"c"=:c`, one for each column `c` of
`C` in input order, joined by `", "`. -/
theorem genUpdateString_terms (C : List String) :
    genUpdateString C = ", ".intercalate (C.map (fun c => "\"" ++ c ++ "\"=:" ++ c)) ∧
    (C.map (fun c => "\"" ++ c ++ "\"=:" ++ c)).length = C.length := by
  refine ⟨?_, List.length_map _ _⟩
  rw [genUpdateString]
  simp only [foldl_snoc_eq_map, List.nil_append, Join_eq_intercalate]

/-- C5, the code at a mapping record with the key `id` excluded: the map
branch of `dbFields` does not look at the exclude list, so `id` stays in the
column list and in the statement `Insert` sends. -/
theorem dbFields_map_keeps_excluded_key :
    dbFields (.map [.str "id", .str "name"]) ["id"] = .ok ["id", "name"] ∧
    "id" ∈ ["id"] ∧
    sentBy (Insert ⟨fun _ _ => none, fun _ _ => none, fun _ _ => none, fun _ => .error .ErrNoRows⟩
      "users" (.map [.str "id", .str "name"]) ["id"]) =
      .ok ["INSERT INTO users (\"id\", \"name\") VALUES (:id, :name)"] := by
  decide

/-- C6 as stated fails: with the struct field `Address` (tag `address`, holding
`City` with tag `city`) declared before `Name` (tag `name`), `dbFields` returns
`address, city, name`, not the parent columns `address, name` followed by the
child column `city`. -/
theorem dbFields_parent_then_child_fails :
    dbFields (.struct
        [.mk "Address" true [("db", "address")] (.struct
            [.mk "City" true [("db", "city")] (.other .Str)]),
         .mk "Name" true [("db", "name")] (.other .Str)]) [] = .ok ["address", "city", "name"] ∧
    ownColumns []
        [.mk "Address" true [("db", "address")] (.struct
            [.mk "City" true [("db", "city")] (.other .Str)]),
         .mk "Name" true [("db", "name")] (.other .Str)] ++
      nestedColumns []
        [.mk "Address" true [("db", "address")] (.struct
            [.mk "City" true [("db", "city")] (.other .Str)]),
         .mk "Name" true [("db", "name")] (.other .Str)] = ["address", "name", "city"] ∧
    dbFields (.struct
        [.mk "Address" true [("db", "address")] (.struct
            [.mk "City" true [("db", "city")] (.other .Str)]),
         .mk "Name" true [("db", "name")] (.other .Str)]) [] ≠
      .ok (ownColumns []
        [.mk "Address" true [("db", "address")] (.struct
            [.mk "City" true [("db", "city")] (.other .Str)]),
         .mk "Name" true [("db", "name")] (.other .Str)] ++
      nestedColumns []
        [.mk "Address" true [("db", "address")] (.struct
            [.mk "City" true [("db", "city")] (.other .Str)]),
         .mk "Name" true [("db", "name")] (.other .Str)]) := by
  decide

/-- C6 amended. For a struct record with one level of nesting whose struct
fields are exported, `dbFields` returns, field by field in declaration order,
the field's own qualifying column followed by the qualifying columns of the
struct the field holds; this is a rearrangement of the parent columns followed
by the child columns, and it has no duplicates when those have none. -/
theorem dbFields_one_level_interleaved (fs : List StructField) (E : List String)
    (h : oneLevel fs = true) :
    dbFields (.struct fs) E = .ok (interleavedColumns E fs) ∧
    dbFields (.ptr (some (.struct fs))) E = .ok (interleavedColumns E fs) ∧
    (interleavedColumns E fs).Perm (ownColumns E fs ++ nestedColumns E fs) ∧
    ((ownColumns E fs ++ nestedColumns E fs).Nodup → (interleavedColumns E fs).Nodup) := by
  refine ⟨?_, ?_, interleaved_perm E fs, fun hn => ?_⟩
  · rw [dbFields_struct, dbFieldsLoop_oneLevel E fs h]
  · rw [dbFields_ptr_struct, dbFieldsLoop_oneLevel E fs h]
  · exact (interleaved_perm E fs).nodup_iff.mpr hn

/-- C6 amended, at a record whose nested struct sits between two plain
fields, with `id` excluded. -/
theorem dbFields_one_level_interleaved_witness :
    dbFields (.struct
        [.mk "ID" true [("db", "id")] (.other .Int),
         .mk "Address" true [("db", "address")] (.struct
            [.mk "City" true [("db", "city")] (.other .Str),
             .mk "Zip" true [("db", "zip")] (.other .Str)]),
         .mk "Name" true [("db", "name")] (.other .Str)]) ["id"] =
      .ok ["address", "city", "zip", "name"] ∧
    ["address", "city", "zip", "name"].Nodup :=
  ⟨((dbFields_one_level_interleaved
      [.mk "ID" true [("db", "id")] (.other .Int),
       .mk "Address" true [("db", "address")] (.struct
          [.mk "City" true [("db", "city")] (.other .Str),
           .mk "Zip" true [("db", "zip")] (.other .Str)]),
       .mk "Name" true [("db", "name")] (.other .Str)] ["id"] (by decide)).1).trans (by decide),
   by decide⟩

/-- C7 as stated fails: on the empty column list the column clause and the
placeholder clause are not the empty string. -/
theorem empty_clauses_not_empty :
    ¬ (csv [] = "" ∧ csvc [] = "" ∧ genUpdateString [] = "") ∧
    csv [] ≠ "" ∧ csvc [] ≠ "" := by
  decide

/-- C7 amended. On the empty column list `genUpdateString` gives the empty
string, the column clause of `Insert` and `InsertAndGetID` is two double
quotes and their placeholder clause is one colon; so for every record and
exclude list for which `dbFields` returns no column (an empty map, a struct
without qualifying columns or with all of them excluded) the statement
`Insert` sends is `INSERT INTO t ("") VALUES (:)`, and the one
`InsertAndGetID` prepares is that text followed by ` RETURNING ` and the
identifier column. -/
theorem empty_list_clauses (r : dbSPI) (table idField : String) (arg : Value)
    (E : List String) (hfields : dbFields arg E = .ok []) :
    csv [] = "\"\"" ∧ csvc [] = ":" ∧ genUpdateString [] = "" ∧
    sentBy (Insert r table arg E) = .ok ["INSERT INTO " ++ table ++ " (\"\") VALUES (:)"] ∧
    sentBy (InsertAndGetID r table arg E idField) =
      .ok ["INSERT INTO " ++ table ++ " (\"\") VALUES (:) RETURNING " ++ idField] := by
  have h1 : " (" ++ (csv [] ++ (") VALUES (" ++ (csvc [] ++ ")"))) = " (\"\") VALUES (:)" := by
    decide
  have h2 : " (" ++ (csv [] ++ (") VALUES (" ++ (csvc [] ++ (") RETURNING " ++ idField)))) =
      " (\"\") VALUES (:) RETURNING " ++ idField := by
    have : " (\"\") VALUES (:) RETURNING " =
        " (" ++ (csv [] ++ (") VALUES (" ++ (csvc [] ++ ") RETURNING "))) := by decide
    rw [this]
    simp only [String.append_assoc]
  refine ⟨by decide, by decide, by decide, ?_, ?_⟩
  · rw [Insert, hfields]
    simp only [sentBy, String.append_assoc, h1]
  · rw [InsertAndGetID, hfields]
    simp only [String.append_assoc, h2]
    cases r.PrepareNamed _ with
    | error err => rfl
    | ok stmt =>
      simp only
      cases stmt.Get arg <;> rfl

/-- C7 amended, at a struct whose only column `id` is excluded and at the
empty map. -/
theorem empty_list_clauses_witness :
    (sentBy (Insert ⟨fun _ _ => none, fun _ _ => none, fun _ _ => none, fun _ => .error .ErrNoRows⟩
        "users" (.struct [.mk "ID" true [("db", "id")] (.other .Int),
                          .mk "note" false [] (.other .Str)]) ["id"]) =
      .ok ["INSERT INTO " ++ "users" ++ " (\"\") VALUES (:)"]) ∧
    (sentBy (InsertAndGetID
        ⟨fun _ _ => none, fun _ _ => none, fun _ _ => none, fun _ => .error .ErrNoRows⟩
        "users" (.map []) [] "id") =
      .ok ["INSERT INTO " ++ "users" ++ " (\"\") VALUES (:) RETURNING " ++ "id"]) :=
  ⟨(empty_list_clauses _ "users" "id"
      (.struct [.mk "ID" true [("db", "id")] (.other .Int),
                .mk "note" false [] (.other .Str)]) ["id"] (by decide)).2.2.2.1,
   (empty_list_clauses _ "users" "id" (.map []) [] (by decide)).2.2.2.2⟩

/-- C8 as stated fails: a column name holding a comma (the tag
`name,omitempty`) is one column in the statement `Insert` sends and two after
parsing the statement back. -/
theorem parseColumns_roundtrip_fails :
    dbFields (.struct [.mk "Name" true [("db", "name,omitempty")] (.other .Str)]) [] =
      .ok ["name,omitempty"] ∧
    sentBy (Insert ⟨fun _ _ => none, fun _ _ => none, fun _ _ => none, fun _ => .error .ErrNoRows⟩
      "users" (.struct [.mk "Name" true [("db", "name,omitempty")] (.other .Str)]) []) =
      .ok ["INSERT INTO users (\"name,omitempty\") VALUES (:name,omitempty)"] ∧
    parseColumns "INSERT INTO users (\"name,omitempty\") VALUES (:name,omitempty)" =
      ["name", "omitempty"] ∧
    parseColumns "INSERT INTO users (\"name,omitempty\") VALUES (:name,omitempty)" ≠
      ["name,omitempty"] := by
  decide

/-- C8 amended. When the table name holds no `(` and every column of the
non-empty column list `C` holds no comma and no `)` and neither starts nor ends
with a space or a double quote, parsing the statement text `Insert` sends
(the text between the first `(` and the following `)`, split on commas, each
piece stripped of surrounding spaces and double quotes) gives back `C`. -/
theorem Insert_parse_roundtrip (r : dbSPI) (table : String) (arg : Value)
    (E C : List String) (hC : C ≠ []) (hfields : dbFields arg E = .ok C)
    (htable : '(' ∉ table.data) (hcols : ∀ s ∈ C, plainColumn s = true) :
    ∃ sql, sentBy (Insert r table arg E) = .ok [sql] ∧ parseColumns sql = C := by
  cases C with
  | nil => exact absurd rfl hC
  | cons c cs =>
    refine ⟨_, ?_, parseColumns_insert table c cs htable hcols⟩
    rw [Insert, hfields]
    rfl

/-- C8 amended, at the table `users` and the columns `name`, `mail`. -/
theorem Insert_parse_roundtrip_witness :
    ∃ sql,
      sentBy (Insert ⟨fun _ _ => none, fun _ _ => none, fun _ _ => none, fun _ => .error .ErrNoRows⟩
        "users"
        (.struct [.mk "ID" true [("db", "id")] (.other .Int),
                  .mk "Name" true [("db", "name")] (.other .Str),
                  .mk "Mail" true [("db", "mail")] (.other .Str)]) ["id"]) = .ok [sql] ∧
      parseColumns sql = ["name", "mail"] :=
  Insert_parse_roundtrip _ "users" _ ["id"] ["name", "mail"] (by decide) (by decide) (by decide)
    (by decide)

/-- C9 as stated fails on a map: the two operations each call `dbFields`,
each call reads `MapKeys()` anew, and when the map with the keys `a`, `b` is
seen as `a, b` by `Insert` and as `b, a` by `InsertAndGetID`, the prepared
text is not the text of `Insert` followed by ` RETURNING id`. -/
theorem InsertAndGetID_text_differs_on_map :
    sameRecord (.map [.str "a", .str "b"]) (.map [.str "b", .str "a"]) ∧
    sentBy (Insert ⟨fun _ _ => none, fun _ _ => none, fun _ _ => none, fun _ => .error .ErrNoRows⟩
      "t" (.map [.str "a", .str "b"]) []) =
      .ok ["INSERT INTO t (\"a\", \"b\") VALUES (:a, :b)"] ∧
    sentBy (InsertAndGetID
      ⟨fun _ _ => none, fun _ _ => none, fun _ _ => none, fun _ => .error .ErrNoRows⟩
      "t" (.map [.str "b", .str "a"]) [] "id") =
      .ok ["INSERT INTO t (\"b\", \"a\") VALUES (:b, :a) RETURNING id"] ∧
    sentBy (InsertAndGetID
      ⟨fun _ _ => none, fun _ _ => none, fun _ _ => none, fun _ => .error .ErrNoRows⟩
      "t" (.map [.str "b", .str "a"]) [] "id") ≠
      .ok ["INSERT INTO t (\"a\", \"b\") VALUES (:a, :b)" ++ " RETURNING " ++ "id"] :=
  ⟨sameRecord.map _ _ (by decide), by decide, by decide, by decide⟩

/-- C9 amended. For a struct record, and for any record on which the call of
`dbFields` inside `InsertAndGetID` returns what the call inside `Insert`
returns (a map whose keys come in the same order in both calls), the statement
text `InsertAndGetID` prepares is the statement text `Insert` sends for the
same table, record and exclude list, followed by ` RETURNING ` and the
identifier column; and both panic on the same records. -/
theorem InsertAndGetID_statement_text (r : dbSPI) (table : String) (arg other : Value)
    (E : List String) (idField : String) (hsame : sameRecord arg other)
    (horder : arg.isStructRecord = true ∨ dbFields other E = dbFields arg E) :
    sentBy (InsertAndGetID r table other E idField) =
      match sentBy (Insert r table arg E) with
      | .error p => .error p
      | .ok texts => .ok (texts.map (fun sql => sql ++ " RETURNING " ++ idField)) := by
  have hsplit : ∀ x : String, ") RETURNING " ++ x = ")" ++ (" RETURNING " ++ x) := by
    intro x
    have h : ") RETURNING " = ")" ++ " RETURNING " := by decide
    rw [h, String.append_assoc]
  have hcols : dbFields other E = dbFields arg E := by
    rcases horder with hR | h
    · cases hsame with
      | same v => rfl
      | map keys other h => simp [Value.isStructRecord] at hR
      | ptrMap keys other h => simp [Value.isStructRecord] at hR
    · exact h
  rw [InsertAndGetID, Insert, hcols]
  cases dbFields arg E with
  | error p => rfl
  | ok fields =>
    simp only [sentBy]
    cases r.PrepareNamed _ with
    | error err => simp only [List.map_cons, List.map_nil, String.append_assoc, hsplit]
    | ok stmt =>
      simp only
      cases stmt.Get other <;>
        simp only [List.map_cons, List.map_nil, String.append_assoc, hsplit]

/-- C9 amended, at a struct record with `id` excluded. -/
theorem InsertAndGetID_statement_text_witness :
    sentBy (InsertAndGetID
      ⟨fun _ _ => none, fun _ _ => none, fun _ _ => none, fun _ => .error .ErrNoRows⟩ "users"
      (.struct [.mk "ID" true [("db", "id")] (.other .Int),
                .mk "Name" true [("db", "name")] (.other .Str),
                .mk "Mail" true [("db", "mail")] (.other .Str)]) ["id"] "id") =
      .ok ["INSERT INTO users (\"name\", \"mail\") VALUES (:name, :mail) RETURNING id"] :=
  (InsertAndGetID_statement_text
    ⟨fun _ _ => none, fun _ _ => none, fun _ _ => none, fun _ => .error .ErrNoRows⟩ "users"
    (.struct [.mk "ID" true [("db", "id")] (.other .Int),
              .mk "Name" true [("db", "name")] (.other .Str),
              .mk "Mail" true [("db", "mail")] (.other .Str)])
    (.struct [.mk "ID" true [("db", "id")] (.other .Int),
              .mk "Name" true [("db", "name")] (.other .Str),
              .mk "Mail" true [("db", "mail")] (.other .Str)])
    ["id"] "id" (sameRecord.same _) (Or.inl (by decide))).trans (by decide)

/-- C10. Whatever annotations of this library (`errors.WithStack`,
`errors.Wrapf`) are laid around an error, `IsNotFoundError` answers as on the
error itself, that is, whether the root cause is `sql.ErrNoRows`; so
`sql.ErrNoRows` wrapped twice with context (or by `GetE` and then with
context) is reported as not found, and `GetE`, `SelectE` report as the
executor's error does. -/
theorem IsNotFoundError_wrapLayers (err : Option Error) (layers : List Layer)
    (m1 m2 : String) (r : dbSPI) (query : String) (args : List Value) :
    IsNotFoundError (wrapLayers layers err) = IsNotFoundError err ∧
    (IsNotFoundError (wrapLayers layers err) = true ↔ Cause err = some .ErrNoRows) ∧
    IsNotFoundError (Wrapf (Wrapf (some .ErrNoRows) m1) m2) = true ∧
    IsNotFoundError (Wrapf (WithStack (some .ErrNoRows)) m1) = true ∧
    IsNotFoundError (GetE r query args) = IsNotFoundError (r.Get query args) ∧
    IsNotFoundError (SelectE r query args) = IsNotFoundError (r.Select query args) := by
  refine ⟨?_, ?_, rfl, rfl, ?_, ?_⟩
  · simp only [IsNotFoundError, Cause_wrapLayers]
  · simp only [IsNotFoundError, Cause_wrapLayers]
    cases h : Cause err with
    | none => simp
    | some e => cases e <;> simp
  · simp only [IsNotFoundError, GetE, Cause_WithStack]
  · simp only [IsNotFoundError, SelectE, Cause_WithStack]

/-- C11 as stated fails in its root-cause part: when the executor's error `e`
has a `Cause` method of its own (here an error of another package whose cause
is `sql.ErrNoRows`, and one whose cause is nil), the root cause `errors.Cause`
finds in the error `Insert` returns is the root cause of `e`, not `e`. -/
theorem executor_error_root_cause_not_e :
    (∃ o, Insert ⟨fun _ _ => none, fun _ _ => none,
          fun _ _ => some (.causer "outer" (some .ErrNoRows)), fun _ => .error .ErrNoRows⟩
          "users" (.struct [.mk "Name" true [("db", "name")] (.other .Str)]) [] = .ok o ∧
      Cause o.err = some .ErrNoRows ∧
      Cause o.err ≠ some (.causer "outer" (some .ErrNoRows))) ∧
    (∃ o, Insert ⟨fun _ _ => none, fun _ _ => none,
          fun _ _ => some (.causer "outer" none), fun _ => .error .ErrNoRows⟩
          "users" (.struct [.mk "Name" true [("db", "name")] (.other .Str)]) [] = .ok o ∧
      Cause o.err = none ∧
      Cause o.err ≠ some (.causer "outer" none)) := by
  refine ⟨⟨_, rfl, rfl, ?_⟩, ⟨_, rfl, rfl, ?_⟩⟩
  · intro h
    have h2 : some Error.ErrNoRows = some (Error.causer "outer" (some .ErrNoRows)) := h
    cases h2
  · intro h
    have h2 : (none : Option Error) = some (Error.causer "outer" none) := h
    cases h2

/-- C11 amended. No executor error is swallowed and none is invented. `UpdateFields`
always, and `Insert` and `Update` whenever `dbFields` returns a column list
(which it does on every map record and on every struct record whose
struct-typed fields are exported), call `NamedExec` once and return nil
exactly when it returns nil; an error `e` of the executor comes back wrapped,
unmodified, with `errors.Cause` of the result being `errors.Cause` of `e` (so
`e` itself when `e` has no `Cause` method) and with the text
`Cannot insert into table '<table>'` or `Cannot update table '<table>'`
followed by `": "` and the text of `e`. When `dbFields` panics, `Insert` and
`Update` panic the same way and the executor is not reached. -/
theorem executor_error_passes (r : dbSPI) (table whereSQL : String) (arg : Value)
    (E fields : List String) :
    (∃ sql, (UpdateFields r table arg whereSQL fields).sent = [sql] ∧
      passesOn (r.NamedExec sql arg) (UpdateFields r table arg whereSQL fields).err
        ("Cannot update table '" ++ table ++ "'")) ∧
    (match dbFields arg E with
     | .error p =>
       Insert r table arg E = .error p ∧ Update r table arg whereSQL E = .error p
     | .ok _ =>
       (∃ o sql, Insert r table arg E = .ok o ∧ o.sent = [sql] ∧
         passesOn (r.NamedExec sql arg) o.err ("Cannot insert into table '" ++ table ++ "'")) ∧
       (∃ o sql, Update r table arg whereSQL E = .ok o ∧ o.sent = [sql] ∧
         passesOn (r.NamedExec sql arg) o.err ("Cannot update table '" ++ table ++ "'"))) ∧
    ((arg.isStructRecord = true ∧ recordStructsExported arg = true) ∨
        (∃ keys, arg = .map keys ∨ arg = .ptr (some (.map keys))) →
      ∃ cols, dbFields arg E = .ok cols) := by
  refine ⟨⟨_, rfl, passesOn_Wrapf _ _⟩, ?_, ?_⟩
  · rw [Insert, Update]
    cases dbFields arg E with
    | error p => exact ⟨rfl, rfl⟩
    | ok cols =>
      exact ⟨⟨_, _, rfl, rfl, passesOn_Wrapf _ _⟩, ⟨_, _, rfl, rfl, passesOn_Wrapf _ _⟩⟩
  · rintro (⟨hR, hx⟩ | ⟨keys, rfl | rfl⟩)
    · exact dbFields_returns_of_exported arg E hR hx
    · exact ⟨_, rfl⟩
    · exact ⟨_, rfl⟩

/-- C11, at an executor that reports `duplicate key` on the table `users`. -/
theorem executor_error_passes_witness :
    (∃ sql, (UpdateFields ⟨fun _ _ => none, fun _ _ => none,
          fun _ _ => some (.other "duplicate key"), fun _ => .error .ErrNoRows⟩ "users"
          (.struct [.mk "Name" true [("db", "name")] (.other .Str)]) "WHERE id = 1"
          ["name"]).sent = [sql] ∧
      passesOn (some (.other "duplicate key"))
        (some (.withStack (.withMessage (.other "duplicate key") "Cannot update table 'users'")))
        ("Cannot update table '" ++ "users" ++ "'")) ∧
    ∃ cols, dbFields (.struct [.mk "Name" true [("db", "name")] (.other .Str)]) ["id"] =
      .ok cols :=
  ⟨(executor_error_passes ⟨fun _ _ => none, fun _ _ => none,
      fun _ _ => some (.other "duplicate key"), fun _ => .error .ErrNoRows⟩ "users"
      "WHERE id = 1" (.struct [.mk "Name" true [("db", "name")] (.other .Str)]) ["id"]
      ["name"]).1,
   (executor_error_passes ⟨fun _ _ => none, fun _ _ => none,
      fun _ _ => some (.other "duplicate key"), fun _ => .error .ErrNoRows⟩ "users"
      "WHERE id = 1" (.struct [.mk "Name" true [("db", "name")] (.other .Str)]) ["id"]
      ["name"]).2.2 (Or.inl ⟨rfl, rfl⟩)⟩

/-- C12, the code at struct records holding a struct in an unexported field
(an unexported `mu` of struct type beside a tagged `Name`; an embedded
unexported `base` behind a pointer): `dbFields` does not return a column list
but panics in `reflect.Value.Interface`, with a message other than the
unsupported-shape one, and `Insert` panics with it. -/
theorem dbFields_panics_on_unexported_struct_field :
    dbFields (.struct
        [.mk "Name" true [("db", "name")] (.other .Str),
         .mk "mu" false [] (.struct [])]) [] = .error .unexportedField ∧
    dbFields (.ptr (some (.struct
        [.mk "base" false [] (.struct [.mk "ID" true [("db", "id")] (.other .Int)]),
         .mk "Name" true [("db", "name")] (.other .Str)]))) [] = .error .unexportedField ∧
    sentBy (Insert ⟨fun _ _ => none, fun _ _ => none, fun _ _ => none, fun _ => .error .ErrNoRows⟩
      "users"
      (.struct
        [.mk "Name" true [("db", "name")] (.other .Str),
         .mk "mu" false [] (.struct [])]) []) = .error .unexportedField ∧
    Panic.message .unexportedField ≠ Panic.message (.unsupported "struct") := by
  decide

/-- C13. For a string-keyed map record with the distinct keys `M`, handed out
by `MapKeys()` in the order `order`, `dbFields` with the empty exclude list
returns a permutation of `M` (by value and through one pointer): every key
exactly once, nothing else, as many names as keys; and the empty map gives
the empty list. -/
theorem dbFields_map_is_permutation_of_keys (M order : List String) (hM : M.Nodup)
    (horder : order.Perm M) :
    ∃ cols, dbFields (.map (order.map MapKey.str)) [] = .ok cols ∧
      dbFields (.ptr (some (.map (order.map MapKey.str)))) [] = .ok cols ∧
      cols.Perm M ∧ (∀ k ∈ M, cols.count k = 1) ∧ (∀ k ∈ cols, k ∈ M) ∧
      cols.length = M.length ∧
      dbFields (.map []) [] = .ok [] := by
  have hmap : (order.map MapKey.str).map MapKey.String = order := by
    rw [List.map_map]
    conv_rhs => rw [← List.map_id order]
    apply List.map_congr_left
    intro a _
    rfl
  refine ⟨order, ?_, ?_, horder, ?_, ?_, horder.length_eq, rfl⟩
  · rw [dbFields, hmap]
  · rw [dbFields, hmap]
  · intro k hk
    rw [horder.count_eq]
    exact List.count_eq_one_of_mem hM hk
  · intro k hk
    exact horder.subset hk

/-- C13, at a map with the keys `id`, `mail`, `name` iterated in another order. -/
theorem dbFields_map_is_permutation_of_keys_witness :
    ∃ cols, dbFields (.map [.str "name", .str "id", .str "mail"]) [] = .ok cols ∧
      dbFields (.ptr (some (.map [.str "name", .str "id", .str "mail"]))) [] = .ok cols ∧
      cols.Perm ["id", "mail", "name"] ∧ (∀ k ∈ ["id", "mail", "name"], cols.count k = 1) ∧
      (∀ k ∈ cols, k ∈ ["id", "mail", "name"]) ∧
      cols.length = ["id", "mail", "name"].length ∧
      dbFields (.map []) [] = .ok [] :=
  dbFields_map_is_permutation_of_keys ["id", "mail", "name"] ["name", "id", "mail"]
    (by decide) (by decide)

/-- C14. On a struct record `Update` is `UpdateFields` on the column list of
`dbFields` (and panics when `dbFields` does): it sends the one statement
`"UPDATE " + table + " SET " + genUpdateString(fields) + " " + whereSQL`,
returns the wrapped error of that call, the SET clause is the terms `"c"=:c`
of the columns joined by `", "`, and no column of it is in the exclude list. -/
theorem Update_is_UpdateFields_of_dbFields (r : dbSPI) (table whereSQL : String) (arg : Value)
    (E : List String) (hR : arg.isStructRecord = true) :
    match dbFields arg E with
    | .error p => Update r table arg whereSQL E = .error p
    | .ok fields =>
      Update r table arg whereSQL E = .ok (UpdateFields r table arg whereSQL fields) ∧
      (UpdateFields r table arg whereSQL fields).sent =
        ["UPDATE " ++ table ++ " SET " ++ genUpdateString fields ++ " " ++ whereSQL] ∧
      (UpdateFields r table arg whereSQL fields).err =
        Wrapf (r.NamedExec
          ("UPDATE " ++ table ++ " SET " ++ genUpdateString fields ++ " " ++ whereSQL) arg)
          ("Cannot update table '" ++ table ++ "'") ∧
      genUpdateString fields =
        ", ".intercalate (fields.map (fun c => "\"" ++ c ++ "\"=:" ++ c)) ∧
      ∀ c ∈ fields, c ∉ E := by
  cases h : dbFields arg E with
  | error p => simp only [Update, h]
  | ok fields =>
    refine ⟨?_, rfl, rfl, genUpdateString_eq_intercalate fields,
      dbFields_not_excluded arg E fields hR h⟩
    simp only [Update, h]

/-- C14, at the table `users` with `id` excluded. -/
theorem Update_is_UpdateFields_of_dbFields_witness :
    sentBy (Update ⟨fun _ _ => none, fun _ _ => none, fun _ _ => none, fun _ => .error .ErrNoRows⟩
      "users"
      (.struct [.mk "ID" true [("db", "id")] (.other .Int),
                .mk "Name" true [("db", "name")] (.other .Str),
                .mk "Mail" true [("db", "mail")] (.other .Str)]) "WHERE id=:id" ["id"]) =
      .ok ["UPDATE users SET \"name\"=:name, \"mail\"=:mail WHERE id=:id"] := by
  have h := Update_is_UpdateFields_of_dbFields
    ⟨fun _ _ => none, fun _ _ => none, fun _ _ => none, fun _ => .error .ErrNoRows⟩ "users"
    "WHERE id=:id"
    (.struct [.mk "ID" true [("db", "id")] (.other .Int),
              .mk "Name" true [("db", "name")] (.other .Str),
              .mk "Mail" true [("db", "mail")] (.other .Str)]) ["id"] (by decide)
  rw [h.1]
  decide

/-- C15. Exclusion commutes with extraction: on a struct record, with any
depth of by-value nesting, `dbFields R E` is `dbFields R []` with the names of
`E` filtered out, order kept (and panics exactly when `dbFields R []` does);
so it is the same for two exclude lists with the same elements, and it is a
sublist of `dbFields R []`. -/
theorem dbFields_exclusion_commutes (R : Value) (E : List String)
    (hR : R.isStructRecord = true) :
    (dbFields R E =
      match dbFields R [] with
      | .ok all => .ok (all.filter (fun c => decide (c ∉ E)))
      | .error p => .error p) ∧
    (∀ E2 : List String, (∀ x, x ∈ E2 ↔ x ∈ E) → dbFields R E2 = dbFields R E) ∧
    (∀ cols all, dbFields R E = .ok cols → dbFields R [] = .ok all → cols.Sublist all) := by
  have h1 : ∀ E' : List String, dbFields R E' =
      match dbFields R [] with
      | .ok all => .ok (all.filter (fun c => decide (c ∉ E')))
      | .error p => .error p := by
    intro E'
    rw [dbFields_of_structRecord R E' hR, dbFields_of_structRecord R [] hR,
      dbFieldsLoop_exclude E' (recordFields R) []]
    cases dbFieldsLoop (recordFields R) [] [] <;> simp
  refine ⟨h1 E, ?_, ?_⟩
  · intro E2 hE
    rw [h1 E2, h1 E]
    cases dbFields R [] with
    | error p => rfl
    | ok all =>
      simp only [Except.ok.injEq]
      apply List.filter_congr
      intro x _
      simp only [hE x]
  · intro cols all hc ha
    rw [h1 E, ha] at hc
    cases hc
    exact List.filter_sublist _

/-- C15, at a record nested two levels deep with a repeated exclude name. -/
theorem dbFields_exclusion_commutes_witness :
    dbFields (.struct
        [.mk "ID" true [("db", "id")] (.other .Int),
         .mk "Address" true [("db", "address")] (.struct
            [.mk "City" true [("db", "city")] (.other .Str),
             .mk "Geo" true [] (.struct [.mk "Lat" true [("db", "lat")] (.other .Float64)])]),
         .mk "Name" true [("db", "name")] (.other .Str)]) ["city", "id", "city"] =
      .ok ["address", "lat", "name"] := by
  have h := (dbFields_exclusion_commutes (.struct
        [.mk "ID" true [("db", "id")] (.other .Int),
         .mk "Address" true [("db", "address")] (.struct
            [.mk "City" true [("db", "city")] (.other .Str),
             .mk "Geo" true [] (.struct [.mk "Lat" true [("db", "lat")] (.other .Float64)])]),
         .mk "Name" true [("db", "name")] (.other .Str)]) ["city", "id", "city"] (by decide)).1
  exact h.trans (by decide)

/-- C16. The columns of a by-value struct field sit at the field's position
whatever the field's own tag: when `dbFields` returns `cols` on a struct record
with the fields `pre`, then a field holding the struct `sub`, then `post`,
`cols` is the columns of `pre`, then the field's own tag if it qualifies (not
empty, not `"-"`, not excluded), then the columns `dbFields` returns on `sub`,
then the columns of `post`. -/
theorem dbFields_nested_at_field_position (R : Value) (pre post sub : List StructField)
    (n : String) (e : Bool) (t : StructTag) (E cols : List String)
    (hR : R = .struct (pre ++ .mk n e t (.struct sub) :: post) ∨
      R = .ptr (some (.struct (pre ++ .mk n e t (.struct sub) :: post))))
    (h : dbFields R E = .ok cols) :
    ∃ before inner after,
      dbFields (.struct pre) E = .ok before ∧
      dbFields (.struct sub) E = .ok inner ∧
      dbFields (.struct post) E = .ok after ∧
      cols = before ++ (if keeps E (t.Get "db") then [t.Get "db"] else []) ++ inner ++ after := by
  have hloop : dbFieldsLoop (pre ++ .mk n e t (.struct sub) :: post) E [] = .ok cols := by
    rcases hR with rfl | rfl
    · rwa [dbFields_struct] at h
    · rwa [dbFields_ptr_struct] at h
  rw [dbFieldsLoop_append] at hloop
  cases hpre : dbFieldsLoop pre E [] with
  | error p => rw [hpre] at hloop; cases hloop
  | ok before =>
    rw [hpre] at hloop
    simp only at hloop
    rw [dbFieldsLoop_cons_struct] at hloop
    cases e with
    | false => simp at hloop
    | true =>
      simp only [if_true] at hloop
      cases hsub : dbFields (.struct sub) E with
      | error p => rw [hsub] at hloop; cases hloop
      | ok inner =>
        rw [hsub] at hloop
        simp only at hloop
        rw [dbFieldsLoop_acc] at hloop
        cases hpost : dbFieldsLoop post E [] with
        | error p => rw [hpost] at hloop; cases hloop
        | ok after =>
          rw [hpost] at hloop
          simp only [Except.ok.injEq] at hloop
          refine ⟨before, inner, after, by rw [dbFields_struct, hpre], rfl,
            by rw [dbFields_struct, hpost], ?_⟩
          rw [← hloop, push_eq_append]
          have hp : push E [] (t.Get "db") = if keeps E (t.Get "db") then [t.Get "db"] else [] := by
            unfold push keeps
            split <;> simp
          rw [hp]

/-- C16, at a record whose struct field `Address` is tagged `"-"`, between
two plain fields. -/
theorem dbFields_nested_at_field_position_witness :
    ∃ before inner after,
      dbFields (.struct [.mk "ID" true [("db", "id")] (.other .Int)]) ["zip"] = .ok before ∧
      dbFields (.struct [.mk "City" true [("db", "city")] (.other .Str),
                         .mk "Zip" true [("db", "zip")] (.other .Str)]) ["zip"] = .ok inner ∧
      dbFields (.struct [.mk "Name" true [("db", "name")] (.other .Str)]) ["zip"] = .ok after ∧
      ["id", "city", "name"] =
        before ++ (if keeps ["zip"] (StructTag.Get [("db", "-")] "db")
          then [StructTag.Get [("db", "-")] "db"] else []) ++ inner ++ after :=
  dbFields_nested_at_field_position
    (.struct ([.mk "ID" true [("db", "id")] (.other .Int)] ++
      .mk "Address" true [("db", "-")] (.struct
        [.mk "City" true [("db", "city")] (.other .Str),
         .mk "Zip" true [("db", "zip")] (.other .Str)]) ::
      [.mk "Name" true [("db", "name")] (.other .Str)]))
    [.mk "ID" true [("db", "id")] (.other .Int)]
    [.mk "Name" true [("db", "name")] (.other .Str)]
    [.mk "City" true [("db", "city")] (.other .Str),
     .mk "Zip" true [("db", "zip")] (.other .Str)]
    "Address" true [("db", "-")] ["zip"] ["id", "city", "name"] (Or.inl rfl) (by decide)

/-- C17. `dbFields` terminates on every record within the by-value nesting
depth: run under a budget for the depth of nested calls, it gives the answer of
`dbFields` as soon as the budget reaches the nesting depth of the record (and
one unit less is not enough on a struct holding a struct); the struct a
recursive call gets is strictly smaller and strictly less deep than the struct
holding it; and on a field that is a pointer, a map or of any other kind the
loop goes on without making the recursive call, whatever that call would do. -/
theorem dbFields_terminates_within_depth (v : Value) (E acc : List String) (k : Nat)
    (pre post sub rest : List StructField) (n : String) (e : Bool) (t : StructTag)
    (p : Option Value) (keys : List MapKey) (o : OtherKind)
    (call : Value → List String → Option (Except Panic (List String))) :
    dbFieldsFuel (recordDepth v + k) v E = some (dbFields v E) ∧
    dbFieldsFuel 1 (.struct [.mk "Address" true [] (.struct [])]) E = none ∧
    (Value.struct sub).structDepth <
      (Value.struct (pre ++ .mk n e t (.struct sub) :: post)).structDepth ∧
    sizeOf (Value.struct sub) < sizeOf (Value.struct (pre ++ .mk n e t (.struct sub) :: post)) ∧
    dbFieldsLoopWith call (.mk n e t (.ptr p) :: rest) E acc =
      dbFieldsLoopWith call rest E (push E acc (t.Get "db")) ∧
    dbFieldsLoopWith call (.mk n e t (.map keys) :: rest) E acc =
      dbFieldsLoopWith call rest E (push E acc (t.Get "db")) ∧
    dbFieldsLoopWith call (.mk n e t (.other o) :: rest) E acc =
      dbFieldsLoopWith call rest E (push E acc (t.Get "db")) := by
  refine ⟨dbFieldsFuel_eq v E k, rfl, ?_, ?_, dbFieldsLoopWith_cons_flat _ _ _ _ _ _ _ _ rfl,
    dbFieldsLoopWith_cons_flat _ _ _ _ _ _ _ _ rfl,
    dbFieldsLoopWith_cons_flat _ _ _ _ _ _ _ _ rfl⟩
  · rw [structDepth_struct (pre ++ _)]
    have h := fieldsStructDepth_append_ge pre post (.mk n e t (.struct sub))
    simp only [StructField.value] at h
    omega
  · have h := sizeOf_append_gt pre post (.mk n e t (.struct sub))
    simp only [Value.struct.sizeOf_spec, StructField.mk.sizeOf_spec] at h ⊢
    omega

end Sqlxpp
